import Mathlib

/-!
Verification of the Dolmenwood PDF-extraction toolchain.

The definitions below are shallow embeddings of the Python sources
`extract_dcb_treasure.py`, `extract_dmb.py` and `extract_raw_text.py`:
pure Lean functions mirroring each Python function, with Python floats
modelled as rationals, Python `None` as `Option`, Python dicts as
insertion-ordered association lists, and Python exceptions as `Option`
results.  Console output (`print`) is modelled as an explicit list of
emitted message strings where a claim depends on it.
-/

namespace DW

/-! ## Python string primitives -/

/-- Characters treated as whitespace by Python's `str.strip` (ASCII subset;
the sources only ever strip ASCII whitespace). -/
def pyIsSpace (c : Char) : Bool :=
  c = ' ' || c = '\t' || c = '\n' || c = '\r' || c = '\x0b' || c = '\x0c'

/-- Python `s.strip()`: remove leading and trailing whitespace. -/
def pyStrip (s : String) : String :=
  String.mk (((s.toList.dropWhile pyIsSpace).reverse.dropWhile pyIsSpace).reverse)

/-- ASCII decimal digit test (`\d` in the source regexes). -/
def pyIsDigit (c : Char) : Bool := '0' ≤ c && c ≤ '9'

def digitVal (c : Char) : Nat := c.toNat - '0'.toNat

/-- Numeric value of a list of decimal digits. -/
def natOfDigits (l : List Char) : Nat := l.foldl (fun a c => a * 10 + digitVal c) 0

/-- Python `int(s)`: strips whitespace, allows one sign, then decimal digits.
`none` models the `ValueError` raised on any other input. -/
def pyInt (s : String) : Option Int :=
  match (pyStrip s).toList with
  | '-' :: rest =>
      if rest ≠ [] && rest.all pyIsDigit then some (-(natOfDigits rest : Int)) else none
  | '+' :: rest =>
      if rest ≠ [] && rest.all pyIsDigit then some ((natOfDigits rest : Int)) else none
  | rest =>
      if rest ≠ [] && rest.all pyIsDigit then some ((natOfDigits rest : Int)) else none

/-- Python `text.replace(old, new)` for single-character `old`/`new`. -/
def pyReplaceChar (s : String) (a b : Char) : String :=
  String.mk (s.toList.map (fun c => if c = a then b else c))

/-- Python `text.replace(old, "")` for a single-character `old`. -/
def pyDeleteChar (s : String) (a : Char) : String :=
  String.mk (s.toList.filter (fun c => c ≠ a))

def splitOnCharAux (sep : Char) : List Char → List Char → List String
  | [], acc => [String.mk acc.reverse]
  | c :: rest, acc =>
      if c = sep then String.mk acc.reverse :: splitOnCharAux sep rest []
      else splitOnCharAux sep rest (c :: acc)

/-- Python `text.split(sep)` for a single-character separator:
splits at every occurrence, keeping empty pieces. -/
def pySplitChar (s : String) (sep : Char) : List String :=
  splitOnCharAux sep s.toList []

/-- Python `s.isdigit()` (ASCII digits). -/
def pyIsDigitStr (s : String) : Bool :=
  s.toList ≠ [] && s.toList.all pyIsDigit

/-- Python substring membership test `pat in hay`. -/
def pyIn (pat hay : String) : Bool :=
  hay.toList.tails.any (fun t => pat.toList.isPrefixOf t)

/-- Python `s.rstrip(":")`: remove all trailing colons. -/
def pyRstripColon (s : String) : String :=
  String.mk ((s.toList.reverse.dropWhile (fun c => c = ':')).reverse)

/-- Python `s.lower()` (ASCII). -/
def pyLower (s : String) : String :=
  String.mk (s.toList.map Char.toLower)

/-!  ## `extract_dcb_treasure.py` — parse helpers -/

/-- `parse_average_value`, first line: `text.strip().replace(",", "").replace(" ", "")`. -/
def avCleaned (text : String) : String :=
  pyDeleteChar (pyDeleteChar (pyStrip text) ',') ' '

/-- Character class `[\d,]` of the average-value regex. -/
def isDigitOrComma (c : Char) : Bool := pyIsDigit c || c = ','

/-- Matcher for `^([\d,]+)gp$`, working on the reversed character list of
the cleaned text. -/
def avMatchRev (rev : List Char) : Option Int :=
  match rev with
  | 'p' :: 'g' :: restRev =>
      let grp := restRev.reverse
      if grp ≠ [] && grp.all isDigitOrComma then pyInt (String.mk grp) else none
  | _ => none

/-- `parse_average_value(text)`: clean the text, then match `^([\d,]+)gp$`.
After cleaning no comma can remain, so the captured group is always pure
digits and the `int()` call cannot raise. -/
def parse_average_value (text : String) : Option Int :=
  avMatchRev ((avCleaned text).toList.reverse)

/-- Body of `parse_roll_range` after the en-dash normalisation. -/
def parseRollRangeParts (text : String) : Option (Int × Int) :=
  match pySplitChar text '-' with
  | [p0, p1] =>
      match pyInt p0 with
      | none => none
      | some lo =>
          if pyStrip p1 = "00" then some (lo, 100)
          else match pyInt (pyStrip p1) with
            | none => none
            | some hi => some (lo, hi)
  | _ =>
      if pyStrip text = "00" then some ((100 : Int), 100)
      else match pyInt (pyStrip text) with
        | none => none
        | some v => some (v, v)

/-- `parse_roll_range(text)`: en-dash normalised to hyphen, split on hyphen;
a two-part range maps an upper bound of literal `"00"` to 100; a single
value of literal `"00"` maps to 100.  `none` models the `ValueError`
raised by `int()` on non-numeric parts. -/
def parse_roll_range (text : String) : Option (Int × Int) :=
  parseRollRangeParts (pyReplaceChar text '–' '-')

/-! ## `_parse_coins_row` -/

/-- The dash test `token in ("–", "-", "—")`. -/
def isDash (s : String) : Bool := s = "–" || s = "-" || s = "—"

/-- Match `^(\d+)%$` against a token; returns the chance. -/
def matchChancePct (s : String) : Option Int :=
  match s.toList.reverse with
  | '%' :: dsRev =>
      let ds := dsRev.reverse
      if ds ≠ [] && ds.all pyIsDigit then some (natOfDigits ds : Int) else none
  | _ => none

/-- Match `^(\d+)%\s+(.+)` against a token; returns the chance and the
(unstripped) group-2 text. -/
def matchChanceQty (s : String) : Option (Int × String) :=
  let t := s.toList
  let ds := t.takeWhile pyIsDigit
  if ds = [] then none
  else
    match t.drop ds.length with
    | '%' :: rest =>
        let ws := rest.takeWhile pyIsSpace
        if ws = [] then none
        else
          let rem := rest.drop ws.length
          if rem = [] then none else some ((natOfDigits ds : Int), String.mk rem)
    | _ => none

/-- One coin-type cell of a coins/riches hoard row. -/
inductive CoinCell where
  | cq (chance : Int) (quantity : String)
  | qOnly (quantity : String)
deriving Repr, DecidableEq

/-- One step of the left-to-right token consumption inside
`_parse_coins_row` (and identically `_parse_riches_row`): from the cursor
position, produce the value for the next coin type and the rest of the
token list. -/
def consumeCoin (rem : List String) : Option CoinCell × List String :=
  match rem with
  | [] => (none, [])
  | token :: rest =>
      if isDash token then
        match rest with
        | t2 :: rest2 => if isDash t2 then (none, rest2) else (none, rest)
        | [] => (none, [])
      else
        match matchChanceQty token with
        | some (c, q) => (some (.cq c (pyStrip q)), rest)
        | none =>
            match matchChancePct token with
            | some c =>
                match rest with
                | q :: rest2 => (some (.cq c (pyStrip q)), rest2)
                | [] => (some (.cq c ""), [])
            | none => (some (.qOnly token), rest)

/-- A parsed COINS hoard-table row. -/
structure CoinsRow where
  type : String
  averageValue : Option Int
  copper : Option CoinCell
  silver : Option CoinCell
  gold : Option CoinCell
  pellucidium : Option CoinCell
deriving Repr, DecidableEq

/-- `_parse_coins_row(label, cells)`: the last cell is the average value;
the cells before it are consumed left to right and assigned in order to
copper, silver, gold, pellucidium. -/
def parse_coins_row (label : String) (cells : List String) : CoinsRow :=
  let avgText := (cells.getLast?).getD ""
  let averageValue := parse_average_value avgText
  let remaining := cells.dropLast
  let (copper, r1) := consumeCoin remaining
  let (silver, r2) := consumeCoin r1
  let (gold, r3) := consumeCoin r2
  let (pell, _) := consumeCoin r3
  { type := label, averageValue := averageValue, copper := copper,
    silver := silver, gold := gold, pellucidium := pell }

/-! ## Helper lemmas about the string primitives -/

lemma toList_append (a b : String) : (a ++ b).toList = a.toList ++ b.toList := by
  cases a; cases b; rfl

lemma mk_toList (s : String) : String.mk s.toList = s := rfl

lemma splitOnCharAux_no_sep (sep : Char) (l acc : List Char) (h : sep ∉ l) :
    splitOnCharAux sep l acc = [String.mk (acc.reverse ++ l)] := by
  induction l generalizing acc with
  | nil => simp [splitOnCharAux]
  | cons c rest ih =>
      have hc : ¬(c = sep) := fun hceq => h (hceq ▸ List.mem_cons_self c rest)
      have hr : sep ∉ rest := fun hm => h (List.mem_cons_of_mem _ hm)
      simp only [splitOnCharAux, if_neg hc, ih _ hr, List.reverse_cons,
        List.append_assoc, List.singleton_append]

lemma splitOnCharAux_sep_append (sep : Char) (l1 l2 acc : List Char) (h : sep ∉ l1) :
    splitOnCharAux sep (l1 ++ sep :: l2) acc =
      String.mk (acc.reverse ++ l1) :: splitOnCharAux sep l2 [] := by
  induction l1 generalizing acc with
  | nil => simp [splitOnCharAux]
  | cons c rest ih =>
      have hc : ¬(c = sep) := fun hceq => h (hceq ▸ List.mem_cons_self c rest)
      have hr : sep ∉ rest := fun hm => h (List.mem_cons_of_mem _ hm)
      simp only [List.cons_append, splitOnCharAux, if_neg hc, List.append_eq, ih _ hr,
        List.reverse_cons, List.append_assoc, List.singleton_append, List.nil_append]

lemma map_id_of_mem {α : Type} (l : List α) (f : α → α) (h : ∀ a ∈ l, f a = a) :
    l.map f = l := by
  induction l with
  | nil => rfl
  | cons x xs ih =>
      simp only [List.map_cons, h x (List.mem_cons_self x xs)]
      rw [ih (fun a ha => h a (List.mem_cons_of_mem _ ha))]

lemma pyReplaceChar_id (s : String) (a b : Char) (h : a ∉ s.toList) :
    pyReplaceChar s a b = s := by
  unfold pyReplaceChar
  have hm : s.toList.map (fun c => if c = a then b else c) = s.toList := by
    apply map_id_of_mem
    intro c hc
    have hne : ¬(c = a) := fun hceq => h (hceq ▸ hc)
    simp [hne]
  rw [hm, mk_toList]

lemma pySplitChar_eq (s : String) (pre post : List Char) (sep : Char)
    (hs : s.toList = pre ++ sep :: post) (h : sep ∉ pre) (h2 : sep ∉ post) :
    pySplitChar s sep = [String.mk pre, String.mk post] := by
  unfold pySplitChar
  rw [hs, splitOnCharAux_sep_append sep _ _ _ h, splitOnCharAux_no_sep sep _ _ h2]
  simp

/-! ## Claim C5 — roll-range parsing -/

/-- C5: the roll-range parser maps "01-05" to (1,5), "98-00" to (98,100),
a bare "00" to (100,100), a bare "7" to (7,7), treats en-dash input exactly
like hyphen input, and a printed upper bound of literal "00" always means
100 for every two-part range whose lower part parses as an integer. -/
theorem C5_roll_range_parsing :
    parse_roll_range "01-05" = some (1, 5) ∧
    parse_roll_range "98-00" = some (98, 100) ∧
    parse_roll_range "00" = some (100, 100) ∧
    parse_roll_range "7" = some (7, 7) ∧
    parse_roll_range "01–05" = parse_roll_range "01-05" ∧
    (∀ (loS : String) (lo : Int), pyInt loS = some lo →
      ('-') ∉ loS.toList → ('–') ∉ loS.toList →
      parse_roll_range (loS ++ "-00") = some (lo, 100)) := by
  refine ⟨by decide, by decide, by decide, by decide, by decide, ?_⟩
  intro loS lo hint hdash hen
  unfold parse_roll_range
  have hrep : pyReplaceChar (loS ++ "-00") '–' '-' = loS ++ "-00" := by
    apply pyReplaceChar_id
    rw [toList_append]
    intro hmem
    rcases List.mem_append.mp hmem with h | h
    · exact hen h
    · revert h; decide
  rw [hrep]
  have hsplit : pySplitChar (loS ++ "-00") '-' = [loS, "00"] := by
    have hl2 : "-00".toList = '-' :: ['0', '0'] := by decide
    have hv := pySplitChar_eq (loS ++ "-00") loS.toList ['0', '0'] '-'
      (by rw [toList_append, hl2]) hdash (by decide)
    simpa [mk_toList] using hv
  unfold parseRollRangeParts
  rw [hsplit]
  have hs00 : pyStrip "00" = "00" := by decide
  simp [hint, hs00]

/-- C5 witness: the universal 00-upper-bound conjunct applied at "98". -/
theorem C5_witness :
    parse_roll_range ("98" ++ "-00") = some (98, 100) :=
  C5_roll_range_parsing.2.2.2.2.2 "98" 98 (by decide) (by decide) (by decide)

/-! ## Claim C10 — literal "00" lower bound is 0 -/

/-- C10: for a two-part range whose lower part is literal "00", the parser
returns min = 0; the 00-means-100 convention applies only to the upper
bound of a two-part range and to a bare "00" input. -/
theorem C10_lower_00 :
    parse_roll_range "00-05" = some (0, 5) ∧
    parse_roll_range "00" = some (100, 100) ∧
    parse_roll_range "98-00" = some (98, 100) ∧
    (∀ (hiS : String) (hi : Int), pyStrip hiS ≠ "00" →
      pyInt (pyStrip hiS) = some hi →
      ('-') ∉ hiS.toList → ('–') ∉ hiS.toList →
      parse_roll_range ("00-" ++ hiS) = some (0, hi)) := by
  refine ⟨by decide, by decide, by decide, ?_⟩
  intro hiS hi hne hint hdash hen
  unfold parse_roll_range
  have hrep : pyReplaceChar ("00-" ++ hiS) '–' '-' = "00-" ++ hiS := by
    apply pyReplaceChar_id
    rw [toList_append]
    intro hmem
    rcases List.mem_append.mp hmem with h | h
    · revert h; decide
    · exact hen h
  rw [hrep]
  have hsplit : pySplitChar ("00-" ++ hiS) '-' = ["00", hiS] := by
    have hl1 : "00-".toList = ['0', '0'] ++ ['-'] := by decide
    have hv := pySplitChar_eq ("00-" ++ hiS) ['0', '0'] hiS.toList '-'
      (by rw [toList_append, hl1]; simp) (by decide) hdash
    simpa [mk_toList] using hv
  unfold parseRollRangeParts
  rw [hsplit]
  have h00 : pyInt "00" = some 0 := by decide
  simp [h00, hne, hint]

/-- C10 witness: the universal conjunct applied at upper part "05". -/
theorem C10_witness :
    parse_roll_range ("00-" ++ "05") = some (0, 5) :=
  C10_lower_00.2.2.2 "05" 5 (by decide) (by decide) (by decide) (by decide)

/-! ## Claim C6 — average-value parsing -/

/-- Spec-side predicate on a reversed character list: the text ends in the
literal "gp" immediately after a digit. -/
def endsDigitsGpRev (rev : List Char) : Bool :=
  match rev with
  | 'p' :: 'g' :: c :: _ => pyIsDigit c
  | _ => false

/-- Spec-side predicate: the (cleaned) text ends in the literal "gp"
immediately after a digit. -/
def endsDigitsGp (t : String) : Bool :=
  endsDigitsGpRev (t.toList.reverse)

lemma avCleaned_no_comma (s : String) (c : Char)
    (hc : c ∈ (avCleaned s).toList) : c ≠ ',' := by
  unfold avCleaned pyDeleteChar at hc
  have h1 : c ∈ (pyStrip s).toList.filter (fun x => x ≠ ',') :=
    List.mem_of_mem_filter hc
  have h2 := List.of_mem_filter h1
  exact of_decide_eq_true h2

/-- C6: the average-value parser maps "25gp" to 25, "1,600gp" and
"1,600 gp" to 1600, and yields `none` for every string whose cleaned form
does not end in "gp" immediately after a digit (never an error: the
function is total). -/
theorem C6_average_value :
    parse_average_value "25gp" = some 25 ∧
    parse_average_value "1,600gp" = some 1600 ∧
    parse_average_value "1,600 gp" = some 1600 ∧
    parse_average_value "n/a" = none ∧
    (∀ s : String, endsDigitsGp (avCleaned s) = false →
      parse_average_value s = none) := by
  refine ⟨by decide, by decide, by decide, by decide, ?_⟩
  intro s hend
  unfold parse_average_value
  unfold endsDigitsGp at hend
  unfold avMatchRev
  split
  case h_2 => rfl
  case h_1 restRev heq =>
    rw [heq] at hend
    cases restRev with
    | nil => simp
    | cons c3 t3 =>
        have hmem : c3 ∈ (avCleaned s).toList := by
          have hm1 : c3 ∈ (avCleaned s).toList.reverse := by
            rw [heq]; simp
          exact List.mem_reverse.mp hm1
        have hnc : c3 ≠ ',' := avCleaned_no_comma s c3 hmem
        have hnd : pyIsDigit c3 = false := by
          simpa [endsDigitsGpRev] using hend
        have hno : isDigitOrComma c3 = false := by
          unfold isDigitOrComma
          simp [hnd, hnc]
        simp
        intro _ hc
        simp [hno] at hc

/-- C6 witness: the universal conjunct applied at "n/a". -/
theorem C6_witness : parse_average_value "n/a" = none :=
  C6_average_value.2.2.2.2 "n/a" (by decide)

/-! ## Claim C1 — coins row parsing at the given cell list -/

/-- C1 counterexample: with the claim's cell list the code does NOT
produce `silver = {50, "1d8 × 1,000sp"}` and `gold = null`; the cells
are consumed left to right, so the dash pair after copper lands on
silver and the 50% pair lands on gold. -/
theorem C1_counterexample :
    parse_coins_row "C1"
      ["25%", "1d4 × 1,000cp", "–", "–", "50%", "1d8 × 1,000sp", "–", "–", "25gp"] ≠
      { type := "C1", averageValue := some 25,
        copper := some (.cq 25 "1d4 × 1,000cp"),
        silver := some (.cq 50 "1d8 × 1,000sp"),
        gold := none, pellucidium := none } := by decide

/-- C1 amended: with the claim's cell list, the parsed row has
copper = {25, "1d4 × 1,000cp"}, silver = null,
gold = {50, "1d8 × 1,000sp"}, pellucidium = null, averageValue = 25. -/
theorem C1_amended :
    parse_coins_row "C1"
      ["25%", "1d4 × 1,000cp", "–", "–", "50%", "1d8 × 1,000sp", "–", "–", "25gp"] =
      { type := "C1", averageValue := some 25,
        copper := some (.cq 25 "1d4 × 1,000cp"),
        silver := none,
        gold := some (.cq 50 "1d8 × 1,000sp"),
        pellucidium := none } := by decide

/-! ## Text spans and the span collector (`collect_spans`, identical in
`extract_dmb.py` and `extract_dcb_treasure.py`) -/

/-- One text span as reported by the PDF text layer: text, font family
name, point size and bounding box.  Floats are modelled as rationals. -/
structure Span where
  text : String
  font : String
  size : ℚ
  bbox : ℚ × ℚ × ℚ × ℚ
deriving Repr, DecidableEq

/-- A page block: image-only blocks carry no `"lines"` key and are
skipped; text blocks carry lines of spans. -/
inductive Block where
  | noLines
  | withLines (lines : List (List Span))
deriving Repr

/-- A page as handed to `collect_spans`: its list of blocks. -/
abbrev Page := List Block

/-- Python `round(x, 0)`: round half to even (banker's rounding).
Computed on the numerator/denominator so the kernel can evaluate it:
`f` is the floor, `rnum / den` the fractional part in `[0, 1)`. -/
def pyRound0 (q : ℚ) : Int :=
  let f : Int := Int.fdiv q.num q.den
  let rnum : Int := q.num - f * q.den
  if 2 * rnum < (q.den : Int) then f
  else if (q.den : Int) < 2 * rnum then f + 1
  else if f % 2 = 0 then f else f + 1

/-- `bbox_key = tuple(round(b, 0) for b in span["bbox"])`. -/
def bboxKey (s : Span) : Int × Int × Int × Int :=
  (pyRound0 s.bbox.1, pyRound0 s.bbox.2.1, pyRound0 s.bbox.2.2.1, pyRound0 s.bbox.2.2.2)

/-- The flat span stream of a page in block/line/span order. -/
def pageSpans (page : Page) : List Span :=
  page.flatMap (fun b =>
    match b with
    | .noLines => []
    | .withLines ls => ls.flatMap id)

/-- The loop body of `collect_spans`: skip whitespace-only spans, skip
spans whose rounded bbox key was already seen, emit the rest. -/
def collectSpansGo : List Span → List (Int × Int × Int × Int) → List Span
  | [], _ => []
  | s :: rest, seen =>
      if pyStrip s.text = "" then collectSpansGo rest seen
      else if bboxKey s ∈ seen then collectSpansGo rest seen
      else s :: collectSpansGo rest (bboxKey s :: seen)

/-- `collect_spans(page)`: all text spans of a page, deduplicated by
rounded bounding box. -/
def collect_spans (page : Page) : List Span :=
  collectSpansGo (pageSpans page) []

/-- Spec-side description of the candidate stream: the page's spans with
whitespace-only spans removed. -/
def candidateSpans (page : Page) : List Span :=
  (pageSpans page).filter (fun s => pyStrip s.text ≠ "")

/-- Spec-side dedup: keep each span, drop every LATER span with the same
rounded bounding box (first-encountered wins; distinct keys all kept). -/
def dedupFirstByKey (l : List Span) : List Span :=
  match l with
  | [] => []
  | s :: rest => s :: dedupFirstByKey (rest.filter (fun t => bboxKey t ≠ bboxKey s))
termination_by l.length
decreasing_by
  simp only [List.length_cons]
  exact Nat.lt_succ_of_le (List.length_filter_le _ _)

lemma mem_dedupFirstByKey : ∀ (l : List Span) (x : Span), x ∈ dedupFirstByKey l → x ∈ l
  | [], x, h => by simp [dedupFirstByKey] at h
  | s :: rest, x, h => by
      rw [dedupFirstByKey] at h
      rcases List.mem_cons.mp h with h1 | h1
      · exact h1 ▸ List.mem_cons_self _ _
      · have hm := mem_dedupFirstByKey _ _ h1
        exact List.mem_cons_of_mem _ (List.mem_of_mem_filter hm)
termination_by l => l.length
decreasing_by
  simp only [List.length_cons]
  exact Nat.lt_succ_of_le (List.length_filter_le _ _)

lemma pairwise_dedupFirstByKey :
    ∀ l : List Span, (dedupFirstByKey l).Pairwise (fun a b => bboxKey a ≠ bboxKey b)
  | [] => by rw [dedupFirstByKey]; exact List.Pairwise.nil
  | s :: rest => by
      rw [dedupFirstByKey]
      refine List.Pairwise.cons ?_ (pairwise_dedupFirstByKey _)
      intro b hb
      have hmem := mem_dedupFirstByKey _ _ hb
      have hf := List.of_mem_filter hmem
      have hne : bboxKey b ≠ bboxKey s := of_decide_eq_true hf
      exact fun h2 => hne h2.symm
termination_by l => l.length
decreasing_by
  simp only [List.length_cons]
  exact Nat.lt_succ_of_le (List.length_filter_le _ _)

lemma filter_key_cons (l : List Span) (k : Int × Int × Int × Int)
    (seen : List (Int × Int × Int × Int)) :
    l.filter (fun a => bboxKey a ∉ k :: seen) =
      (l.filter (fun a => bboxKey a ∉ seen)).filter (fun a => bboxKey a ≠ k) := by
  rw [List.filter_filter]
  apply List.filter_congr
  intro a _
  by_cases h1 : bboxKey a = k <;> by_cases h2 : bboxKey a ∈ seen <;> simp [h1, h2]

lemma collectSpansGo_eq (l : List Span) (seen : List (Int × Int × Int × Int)) :
    collectSpansGo l seen =
      dedupFirstByKey (((l.filter (fun s => pyStrip s.text ≠ "")).filter
        (fun s => bboxKey s ∉ seen))) := by
  induction l generalizing seen with
  | nil => rw [collectSpansGo, List.filter_nil, List.filter_nil, dedupFirstByKey]
  | cons s rest ih =>
      rw [collectSpansGo]
      by_cases hws : pyStrip s.text = ""
      · rw [if_pos hws, ih]
        congr 1
        simp [List.filter_cons, hws]
      · rw [if_neg hws]
        by_cases hseen : bboxKey s ∈ seen
        · rw [if_pos hseen, ih]
          congr 1
          simp [List.filter_cons, hws, hseen]
        · rw [if_neg hseen, ih, filter_key_cons]
          have hstep : (List.filter (fun a => decide (bboxKey a ∉ seen))
              (List.filter (fun a => decide (pyStrip a.text ≠ "")) (s :: rest))) =
              s :: (List.filter (fun a => decide (bboxKey a ∉ seen))
              (List.filter (fun a => decide (pyStrip a.text ≠ "")) rest)) := by
            simp [List.filter_cons, hws, hseen]
          rw [hstep, dedupFirstByKey]

/-- C7: the span collector retains only the first-encountered span of any
pair of non-whitespace spans whose bounding boxes round to the same
integer rectangle, and retains all spans with distinct rounded boxes
(regardless of text equality): the collected list is exactly the
first-occurrence-by-rounded-bbox dedup of the page's non-whitespace span
stream, and no two collected spans share a rounded bounding box. -/
theorem C7_span_dedup (page : Page) :
    collect_spans page = dedupFirstByKey (candidateSpans page) ∧
    (collect_spans page).Pairwise (fun a b => bboxKey a ≠ bboxKey b) := by
  have h1 : collect_spans page = dedupFirstByKey (candidateSpans page) := by
    unfold collect_spans candidateSpans
    rw [collectSpansGo_eq]
    congr 1
    apply List.filter_eq_self.mpr
    intro a _
    simp
  exact ⟨h1, h1 ▸ pairwise_dedupFirstByKey _⟩

/-! ## `_title_case_name` (`extract_dmb.py`) -/

/-- The normalisation inside `_title_case_name`: em-dash (U+2014) to
hyphen, right single curly quote (U+2019) to straight apostrophe. -/
def normalizeName (name : String) : String :=
  pyReplaceChar (pyReplaceChar name '—' '-') '’' '\x27'

/-- Python `str.title()` on a character list: a cased (here: alphabetic)
character is upper-cased when the previous character was not cased and
lower-cased otherwise. -/
def pyTitleAux : Bool → List Char → List Char
  | _, [] => []
  | prevCased, c :: rest =>
      (if c.isAlpha then (if prevCased then c.toLower else c.toUpper) else c) ::
        pyTitleAux c.isAlpha rest

/-- Python `str.title()`. -/
def pyTitle (s : String) : String := String.mk (pyTitleAux false s.toList)

/-- `_title_case_name(name)`: normalise, then `str.title()`. -/
def title_case_name (name : String) : String := pyTitle (normalizeName name)

/-- Title-casing as the claim words it: capitalise the FIRST letter of
each whitespace-separated word and lower-case the remainder of the word
(after the same normalisation). -/
def specTitleAux : Bool → List Char → List Char
  | _, [] => []
  | atStart, c :: rest =>
      if pyIsSpace c then c :: specTitleAux true rest
      else (if atStart then c.toUpper else c.toLower) :: specTitleAux false rest

/-- Spec-side whitespace-word title casing of the claim. -/
def spec_title_case_name (name : String) : String :=
  String.mk (specTitleAux true (normalizeName name).toList)

lemma alpha_not_space (c : Char) (h : c.isAlpha = true) : pyIsSpace c = false := by
  cases hp : pyIsSpace c
  · rfl
  · exfalso
    unfold pyIsSpace at hp
    simp only [Bool.or_eq_true, decide_eq_true_eq] at hp
    rcases hp with ((((rfl | rfl) | rfl) | rfl) | rfl) | rfl <;> revert h <;> decide

lemma titleAgree (l : List Char) (h : ∀ c ∈ l, c.isAlpha = true ∨ pyIsSpace c = true) :
    ∀ b : Bool, pyTitleAux b l = specTitleAux (!b) l := by
  induction l with
  | nil => intro b; rfl
  | cons c rest ih =>
      intro b
      have hrest : ∀ x ∈ rest, x.isAlpha = true ∨ pyIsSpace x = true :=
        fun x hx => h x (List.mem_cons_of_mem _ hx)
      rcases h c (List.mem_cons_self _ _) with hc | hc
      · cases b <;> simp [pyTitleAux, specTitleAux, hc, alpha_not_space c hc, ih hrest]
      · have hna : c.isAlpha = false := by
          cases ha : c.isAlpha
          · rfl
          · exfalso
            unfold pyIsSpace at hc
            simp only [Bool.or_eq_true, decide_eq_true_eq] at hc
            rcases hc with ((((rfl | rfl) | rfl) | rfl) | rfl) | rfl <;> revert ha <;> decide
        simp [pyTitleAux, specTitleAux, hc, hna, ih hrest]

/-- C8 counterexample: the claim's whitespace-word title-casing rule does
not match the code — `.title()` capitalises after ANY non-letter, so
`"WYRM—BLACK BILE"` becomes `"Wyrm-Black Bile"`, not `"Wyrm-black Bile"`. -/
theorem C8_counterexample :
    title_case_name "WYRM—BLACK BILE" ≠ spec_title_case_name "WYRM—BLACK BILE" := by
  decide

/-- C8 amended: the name title-caser normalises em-dash to hyphen and the
right single curly quote to a straight apostrophe, then capitalises each
letter that follows a non-letter and lower-cases letters that follow a
letter (Python `str.title()`); in particular "JACK-O'-LANTERN" maps to
"Jack-O'-Lantern" (not split on the apostrophe) and the claimed
whitespace-word rule holds for names made of letters and whitespace
only. -/
theorem C8_amended :
    title_case_name "JACK-O\x27-LANTERN" = "Jack-O\x27-Lantern" ∧
    title_case_name "JACK-O’-LANTERN" = "Jack-O\x27-Lantern" ∧
    title_case_name "WYRM—BLACK BILE" = "Wyrm-Black Bile" ∧
    title_case_name "ANT, GIANT" = "Ant, Giant" ∧
    title_case_name "LOST SOUL" = "Lost Soul" ∧
    (∀ s : String, (∀ c ∈ s.toList, c.isAlpha = true ∨ pyIsSpace c = true) →
      title_case_name s = spec_title_case_name s) := by
  refine ⟨by decide, by decide, by decide, by decide, by decide, ?_⟩
  intro s hs
  have hd : '—' ∉ s.toList := by
    intro hmem
    rcases hs _ hmem with hc | hc <;> revert hc <;> decide
  have hq : '’' ∉ s.toList := by
    intro hmem
    rcases hs _ hmem with hc | hc <;> revert hc <;> decide
  have hnorm : normalizeName s = s := by
    unfold normalizeName
    rw [pyReplaceChar_id _ _ _ hd, pyReplaceChar_id _ _ _ hq]
  unfold title_case_name spec_title_case_name pyTitle
  rw [hnorm]
  rw [titleAgree _ hs false]
  rfl

/-- C8 witness: the whitespace-word conjunct of the amended theorem
applied at "LOST SOUL". -/
theorem C8_witness : title_case_name "LOST SOUL" = spec_title_case_name "LOST SOUL" :=
  C8_amended.2.2.2.2.2 "LOST SOUL" (by decide)

/-! ## `extract_raw_text.py` -/

/-- `os.path.join` for the relative path components used by the tool. -/
def joinPath (a b : String) : String := a ++ "/" ++ b

/-- `PDF_TARGETS`. -/
def PDF_TARGETS : List (String × String) :=
  [("DMB.pdf", "dmb-raw.txt"), ("DCB.pdf", "dcb-raw.txt")]

/-- Page joining inside `extract_text`: each page's text, with `"\n\n"`
written between consecutive pages (none after the last). -/
def joinPages : List String → String
  | [] => ""
  | [p] => p
  | p :: rest => p ++ "\n\n" ++ joinPages rest

/-- Directory resolution in `main` of `extract_raw_text.py`:
two or more positional arguments give `(input_dir, output_dir)`, exactly
one gives the same directory for both, none gives the project-root
defaults `etl/input` and `etl/output/extract`. -/
def resolveDirs (projectRoot : String) (args : List String) : String × String :=
  match args with
  | a1 :: a2 :: _ => (a1, a2)
  | [a1] => (a1, a1)
  | [] =>
      (joinPath (joinPath projectRoot "etl") "input",
       joinPath (joinPath (joinPath projectRoot "etl") "output") "extract")

/-- Observable effect of one loop iteration of `main`. -/
inductive RawAction where
  | skipped (pdfName : String)
  | wrote (path : String) (content : String)
deriving Repr, DecidableEq

/-- `main` of `extract_raw_text.py` over an abstract filesystem:
`fs path` tells whether a file exists, `pdfPages path` gives the page
texts of a PDF.  Returns the per-target actions and the process exit
code (no `sys.exit` call is reachable, so always 0). -/
def raw_main (fs : String → Bool) (pdfPages : String → List String)
    (projectRoot : String) (args : List String) : List RawAction × Nat :=
  let dirs := resolveDirs projectRoot args
  (PDF_TARGETS.map (fun t =>
    let pdfPath := joinPath dirs.1 t.1
    if fs pdfPath then RawAction.wrote (joinPath dirs.2 t.2) (joinPages (pdfPages pdfPath))
    else RawAction.skipped t.1), 0)

/-- C9 counterexample: with zero positional arguments the tool reads PDFs
from `<root>/etl/input` but writes to `<root>/etl/output/extract` — not a
single directory, and not `tmp/etl`. -/
theorem C9_counterexample :
    (resolveDirs "/repo" []).1 ≠ (resolveDirs "/repo" []).2 ∧
    (resolveDirs "/repo" []).1 ≠ "tmp/etl" ∧
    (resolveDirs "/repo" []).2 ≠ "tmp/etl" := by decide

/-- C9 amended: the raw text dump utility accepts 0–2 positional
arguments `[input_dir [output_dir]]`; with exactly one argument the
output directory IS the input directory; with none, the defaults are
`<project_root>/etl/input` and `<project_root>/etl/output/extract`.  It
looks for DMB.pdf and DCB.pdf in the input directory, writes
dmb-raw.txt / dcb-raw.txt (pages joined by a blank line) into the output
directory for each found, skips each missing PDF with a console notice,
and always exits 0. -/
theorem C9_amended :
    (∀ pr a, resolveDirs pr [a] = (a, a)) ∧
    (∀ pr a b rest, resolveDirs pr (a :: b :: rest) = (a, b)) ∧
    (∀ pr, resolveDirs pr [] =
      (joinPath (joinPath pr "etl") "input",
       joinPath (joinPath (joinPath pr "etl") "output") "extract")) ∧
    (∀ fs pdfPages pr args, (raw_main fs pdfPages pr args).2 = 0) ∧
    (∀ fs pdfPages pr args, ∀ t ∈ PDF_TARGETS,
      fs (joinPath (resolveDirs pr args).1 t.1) = false →
      RawAction.skipped t.1 ∈ (raw_main fs pdfPages pr args).1) ∧
    (∀ fs pdfPages pr args, ∀ t ∈ PDF_TARGETS,
      fs (joinPath (resolveDirs pr args).1 t.1) = true →
      RawAction.wrote (joinPath (resolveDirs pr args).2 t.2)
          (joinPages (pdfPages (joinPath (resolveDirs pr args).1 t.1))) ∈
        (raw_main fs pdfPages pr args).1) := by
  refine ⟨fun pr a => rfl, fun pr a b rest => rfl, fun pr => rfl, fun _ _ _ _ => rfl, ?_, ?_⟩
  · intro fs pdfPages pr args t ht hmiss
    unfold raw_main
    refine List.mem_map.mpr ⟨t, ht, ?_⟩
    simp [hmiss]
  · intro fs pdfPages pr args t ht hhit
    unfold raw_main
    refine List.mem_map.mpr ⟨t, ht, ?_⟩
    simp [hhit]

/-- C9 witness: the skip and write conjuncts of the amended theorem at a
concrete filesystem holding only DCB.pdf, with one positional argument. -/
theorem C9_witness :
    RawAction.skipped "DMB.pdf" ∈
      (raw_main (fun p => p = "d/DCB.pdf") (fun _ => ["page1", "page2"]) "/repo" ["d"]).1 ∧
    RawAction.wrote "d/dcb-raw.txt" "page1\n\npage2" ∈
      (raw_main (fun p => p = "d/DCB.pdf") (fun _ => ["page1", "page2"]) "/repo" ["d"]).1 := by
  constructor
  · exact C9_amended.2.2.2.2.1 (fun p => p = "d/DCB.pdf") (fun _ => ["page1", "page2"])
      "/repo" ["d"] ("DMB.pdf", "dmb-raw.txt") (by decide) (by decide)
  · have h := C9_amended.2.2.2.2.2 (fun p => p = "d/DCB.pdf") (fun _ => ["page1", "page2"])
      "/repo" ["d"] ("DCB.pdf", "dcb-raw.txt") (by decide) (by decide)
    simpa using h

/-! ## `extract_dmb.py` — shared record types -/

/-- An ability entry `{name, text}`. -/
structure Ability where
  name : String
  text : String
deriving Repr, DecidableEq

lemma length_dropWhile_le {α : Type} (p : α → Bool) (l : List α) :
    (l.dropWhile p).length ≤ l.length := by
  induction l with
  | nil => simp
  | cons x xs ih =>
      by_cases h : p x
      · simp only [List.dropWhile, h, List.length_cons]
        omega
      · simp only [List.dropWhile, h, List.length_cons]
        omega

/-- Helper for the soft-hyphen cleanup: when `skipWs` is set the scanner
is inside the `\s*` run following a soft hyphen. -/
def cleanSHAux : Bool → List Char → List Char
  | _, [] => []
  | skipWs, c :: rest =>
      if skipWs && pyIsSpace c then cleanSHAux true rest
      else if c = '\xad' then cleanSHAux true rest
      else c :: cleanSHAux false rest

/-- `re.sub(r'\xad\s*', '', text)`: remove each soft hyphen together with
the whitespace run following it. -/
def cleanSoftHyphens (l : List Char) : List Char := cleanSHAux false l

/-- String version of `cleanSoftHyphens`. -/
def pyCleanSoftHyphen (s : String) : String := String.mk (cleanSoftHyphens s.toList)

/-- `" ".join(parts).strip()` followed by the soft-hyphen cleanup, as used
when flushing an ability. -/
def mkAbilityText (parts : List String) : String :=
  pyCleanSoftHyphen (pyStrip (String.intercalate " " parts))

/-- Python dict insertion: overwrite in place if the key exists, else
append. -/
def dictInsert (d : List (String × String)) (k v : String) : List (String × String) :=
  if d.any (fun p => p.1 = k) then d.map (fun p => if p.1 = k then (k, v) else p)
  else d ++ [(k, v)]

/-- Python truthiness of an optional string (`None` and `""` are falsy). -/
def optTruthy : Option String → Bool
  | some s => s ≠ ""
  | none => false

/-- The source's float literal 8.5 as an exact rational. -/
def q8p5 : ℚ := Rat.mk' 17 2

/-- The source's float literal 9.5 as an exact rational. -/
def q9p5 : ℚ := Rat.mk' 19 2

/-- The source's float literal 10.5 as an exact rational. -/
def q10p5 : ℚ := Rat.mk' 21 2

/-! ### Monster Book font-role classifiers (the ones
`_parse_compact_creature` consults) -/

namespace DMB

def is_page_header_font (s : Span) : Bool :=
  pyIn "Alverata-Bold" s.font && decide (s.size < q8p5)

def is_page_number_font (s : Span) : Bool :=
  pyIn "W5Plain" s.font && decide (q10p5 < s.size) && decide (s.size < 12)

def is_variant_label_font (s : Span) : Bool :=
  pyIn "Alverata-Bold" s.font && decide ((11 : ℚ) < s.size) && decide (s.size < 14)

def is_meta_font (s : Span) : Bool :=
  pyIn "Alverata-Bold" s.font && decide (q8p5 < s.size) && decide (s.size < 10)

def is_stat_label_font (s : Span) : Bool :=
  pyIn "W8ExtraBold" s.font

def is_ability_label_font (s : Span) : Bool :=
  pyIn "W7Bold" s.font && !(pyIn "Italic" s.font)

def is_body_text_font (s : Span) : Bool :=
  pyIn "W5Plain" s.font && decide ((8 : ℚ) < s.size) && decide (s.size < 11)

def is_section_title_font (s : Span) : Bool :=
  pyIn "Winona" s.font && decide ((45 : ℚ) < s.size)

def is_appendix_creature_name_font (s : Span) : Bool :=
  pyIn "AlverataBl" s.font && decide ((14 : ℚ) < s.size)

def is_drop_cap_font (s : Span) : Bool := pyIn "ZallmanCaps" s.font

def is_description_font (s : Span) : Bool := pyIn "IM_FELL" s.font

def is_section_header_font (s : Span) : Bool := pyIn "AlegreyaSans" s.font

end DMB

/-! ### `_parse_compact_creature` -/

/-- A compact-creature variant. `meta` is present only when truthy;
an empty `abilities` list models an absent key. -/
structure Variant where
  label : String
  meta : Option String
  stats : List (String × String)
  abilities : List Ability
deriving Repr, DecidableEq

/-- A compact creature (animals / mortals / adventurers form). -/
structure CompactCreature where
  name : String
  meta : String
  stats : List (String × String)
  abilities : List Ability
  description : String
  variants : List Variant
deriving Repr, DecidableEq

/-- The `state` variable of `_parse_compact_creature`. -/
inductive PState where
  | init
  | stats
  | abilities
deriving Repr, DecidableEq

def PState.isStats : PState → Bool
  | .stats => true
  | _ => false

def PState.isAbilities : PState → Bool
  | .abilities => true
  | _ => false

/-- All mutable locals of `_parse_compact_creature`, threaded as a state
record. -/
structure PCState where
  creatureMeta : String
  creatureStats : List (String × String)
  creatureAbilities : List Ability
  variants : List Variant
  state : PState
  curStatLabel : Option String
  curStatValues : List String
  curAbilityLabel : Option String
  curAbilityText : List String
  curVariantLabel : Option String
  curVariantMeta : Option String
  curVariantStats : List (String × String)
  curVariantAbilities : List Ability
  activeVariantLabel : Option String
deriving Repr, DecidableEq

/-- `label_map = {"Att": "attacks", "Enc": "encounters"}` plus the
`.lower()` fallback. -/
def compactStatKey (label : String) : String :=
  if label = "Att" then "attacks"
  else if label = "Enc" then "encounters"
  else pyLower label

/-- `flush_stat()`: write the pending stat into the variant stats when a
variant is open (truthy label), else into the creature stats. -/
def flushStat (σ : PCState) : PCState :=
  let σ2 := { σ with curStatLabel := none, curStatValues := [] }
  match σ.curStatLabel with
  | some l =>
      if l ≠ "" ∧ σ.curStatValues ≠ [] then
        let value := pyStrip (String.intercalate " " σ.curStatValues)
        let key := compactStatKey l
        if optTruthy σ.curVariantLabel then
          { σ2 with curVariantStats := dictInsert σ.curVariantStats key value }
        else
          { σ2 with creatureStats := dictInsert σ.creatureStats key value }
      else σ2
  | none => σ2

/-- `flush_ability()`: the pending ability goes to the active variant's
list when one is open (`is not None` test), else to the creature. -/
def flushAbility (σ : PCState) : PCState :=
  let σ2 := { σ with curAbilityLabel := none, curAbilityText := [] }
  match σ.curAbilityLabel with
  | some l =>
      if l ≠ "" ∧ σ.curAbilityText ≠ [] then
        let ab : Ability := ⟨pyRstripColon l, mkAbilityText σ.curAbilityText⟩
        if σ.activeVariantLabel.isSome then
          { σ2 with curVariantAbilities := σ.curVariantAbilities ++ [ab] }
        else
          { σ2 with creatureAbilities := σ.creatureAbilities ++ [ab] }
      else σ2
  | none => σ2

/-- `flush_variant()`: record the open variant when it has a truthy label
and a non-empty stat map. -/
def flushVariant (σ : PCState) : PCState :=
  let σ2 := { σ with curVariantLabel := none, curVariantMeta := none,
                     curVariantStats := [], curVariantAbilities := [],
                     activeVariantLabel := none }
  if optTruthy σ.curVariantLabel ∧ σ.curVariantStats ≠ [] then
    { σ2 with variants := σ.variants ++
        [{ label := σ.curVariantLabel.getD ""
           meta := match σ.curVariantMeta with
                   | some m => if m ≠ "" then some m else none
                   | none => none
           stats := σ.curVariantStats
           abilities := σ.curVariantAbilities }] }
  else σ2

/-- One iteration of the span loop of `_parse_compact_creature`, branches
in source order. -/
def pcStep (σ : PCState) (sp : Span) : PCState :=
  let text := pyStrip sp.text
  if text = "" then σ
  else if DMB.is_page_header_font sp then σ
  else if DMB.is_page_number_font sp && pyIsDigitStr text then σ
  else if DMB.is_variant_label_font sp then
    let σ1 := if σ.state.isStats then flushStat σ else σ
    let σ2 := if σ1.state.isAbilities then flushAbility σ1 else σ1
    let σ3 := flushVariant σ2
    { σ3 with curVariantLabel := some text, activeVariantLabel := some text,
              state := .stats }
  else if DMB.is_meta_font sp then
    if optTruthy σ.curVariantLabel then
      { σ with curVariantMeta := some text, state := .stats }
    else if σ.creatureMeta = "" then { σ with creatureMeta := text, state := .stats }
    else { σ with state := .stats }
  else if DMB.is_stat_label_font sp then
    let σ1 := flushStat σ
    { σ1 with curStatLabel := some text, state := .stats }
  else if σ.state.isStats && optTruthy σ.curStatLabel &&
      (pyIn "W5Plain" sp.font || pyIn "Itali" sp.font) then
    { σ with curStatValues := σ.curStatValues ++ [text] }
  else if DMB.is_ability_label_font sp && (σ.state.isStats || σ.state.isAbilities) then
    let σ1 :=
      if σ.state.isStats then
        let σa := flushStat σ
        let σb := if optTruthy σa.curVariantLabel then
            { σa with activeVariantLabel := σa.curVariantLabel }
          else σa
        { σb with state := .abilities }
      else σ
    let σ2 := flushAbility σ1
    { σ2 with curAbilityLabel := some text }
  else if σ.state.isAbilities && optTruthy σ.curAbilityLabel &&
      (DMB.is_body_text_font sp || pyIn "Itali" sp.font) then
    { σ with curAbilityText := σ.curAbilityText ++ [text] }
  else σ

/-- Initial locals of `_parse_compact_creature`. -/
def pcInit : PCState :=
  { creatureMeta := "", creatureStats := [], creatureAbilities := [], variants := [],
    state := .init, curStatLabel := none, curStatValues := [],
    curAbilityLabel := none, curAbilityText := [], curVariantLabel := none,
    curVariantMeta := none, curVariantStats := [], curVariantAbilities := [],
    activeVariantLabel := none }

/-- The final flushes at the end of `_parse_compact_creature`. -/
def pcFinalize (σ : PCState) : PCState :=
  flushVariant (if (flushStat σ).state.isAbilities = true then
    flushAbility (flushStat σ) else flushStat σ)

/-- The `return creature if (creature.stats or creature.variants) else None`
step of `_parse_compact_creature`. -/
def pcResult (name : String) (σ : PCState) : Option CompactCreature :=
  if σ.creatureStats ≠ [] ∨ σ.variants ≠ [] then
    some { name := name, meta := σ.creatureMeta, stats := σ.creatureStats,
           abilities := σ.creatureAbilities, description := "", variants := σ.variants }
  else none

/-- `_parse_compact_creature(name, spans, section_name)`; returns `none`
when neither stats nor variants were found. -/
def parse_compact_creature (name : String) (spans : List Span) : Option CompactCreature :=
  pcResult name (pcFinalize (spans.foldl pcStep pcInit))

/-! ### Span builders for adventurer-style variant streams -/

/-- A variant label span (Alverata-Bold @ 12pt). -/
def variantLabelSpan (l : String) : Span := ⟨l, "Alverata-Bold", 12, (0, 0, 0, 0)⟩

/-- A stat label span (TheAntiquaB-W8ExtraBold @ 9.5pt). -/
def statLabelSpan (l : String) : Span := ⟨l, "TheAntiquaB-W8ExtraBold", q9p5, (0, 0, 0, 0)⟩

/-- A stat value span (TheAntiquaB-W5Plain @ 9.5pt). -/
def statValueSpan (v : String) : Span := ⟨v, "TheAntiquaB-W5Plain", q9p5, (0, 0, 0, 0)⟩

/-- An ability label span (TheAntiquaB-W7Bold @ 9.5pt). -/
def abilityLabelSpan (n : String) : Span := ⟨n, "TheAntiquaB-W7Bold", q9p5, (0, 0, 0, 0)⟩

/-- An ability body-text span (TheAntiquaB-W5Plain @ 9.5pt). -/
def abilityBodySpan (t : String) : Span := ⟨t, "TheAntiquaB-W5Plain", q9p5, (0, 0, 0, 0)⟩

/-- The span stream of a list of abilities: label span then body span. -/
def abilitySpans (abs : List (String × String)) : List Span :=
  abs.flatMap (fun a => [abilityLabelSpan a.1, abilityBodySpan a.2])

/-- A variant block: variant label, a one-entry stat block, then ability
label/body spans. -/
def variantBlock (label : String) (abs : List (String × String)) : List Span :=
  variantLabelSpan label :: statLabelSpan "Level" :: statValueSpan "3" :: abilitySpans abs

/-- The ability record the parser builds from one (label, body) span pair. -/
def mkAb (p : String × String) : Ability :=
  ⟨pyRstripColon (pyStrip p.1), mkAbilityText [pyStrip p.2]⟩

@[simp] lemma variantLabelSpan_text (l : String) : (variantLabelSpan l).text = l := rfl
@[simp] lemma statLabelSpan_text (l : String) : (statLabelSpan l).text = l := rfl
@[simp] lemma statValueSpan_text (v : String) : (statValueSpan v).text = v := rfl
@[simp] lemma abilityLabelSpan_text (n : String) : (abilityLabelSpan n).text = n := rfl
@[simp] lemma abilityBodySpan_text (t : String) : (abilityBodySpan t).text = t := rfl

@[simp] lemma variantLabelSpan_class (l : String) :
    DMB.is_page_header_font (variantLabelSpan l) = false ∧
    DMB.is_page_number_font (variantLabelSpan l) = false ∧
    DMB.is_variant_label_font (variantLabelSpan l) = true := ⟨rfl, rfl, rfl⟩

@[simp] lemma statLabelSpan_class (l : String) :
    DMB.is_page_header_font (statLabelSpan l) = false ∧
    DMB.is_page_number_font (statLabelSpan l) = false ∧
    DMB.is_variant_label_font (statLabelSpan l) = false ∧
    DMB.is_meta_font (statLabelSpan l) = false ∧
    DMB.is_stat_label_font (statLabelSpan l) = true := ⟨rfl, rfl, rfl, rfl, rfl⟩

@[simp] lemma statValueSpan_class (v : String) :
    DMB.is_page_header_font (statValueSpan v) = false ∧
    DMB.is_page_number_font (statValueSpan v) = false ∧
    DMB.is_variant_label_font (statValueSpan v) = false ∧
    DMB.is_meta_font (statValueSpan v) = false ∧
    DMB.is_stat_label_font (statValueSpan v) = false ∧
    pyIn "W5Plain" (statValueSpan v).font = true := ⟨rfl, rfl, rfl, rfl, rfl, rfl⟩

@[simp] lemma abilityLabelSpan_class (n : String) :
    DMB.is_page_header_font (abilityLabelSpan n) = false ∧
    DMB.is_page_number_font (abilityLabelSpan n) = false ∧
    DMB.is_variant_label_font (abilityLabelSpan n) = false ∧
    DMB.is_meta_font (abilityLabelSpan n) = false ∧
    DMB.is_stat_label_font (abilityLabelSpan n) = false ∧
    DMB.is_ability_label_font (abilityLabelSpan n) = true ∧
    pyIn "W5Plain" (abilityLabelSpan n).font = false ∧
    pyIn "Itali" (abilityLabelSpan n).font = false := ⟨rfl, rfl, rfl, rfl, rfl, rfl, rfl, rfl⟩

@[simp] lemma abilityBodySpan_class (t : String) :
    DMB.is_page_header_font (abilityBodySpan t) = false ∧
    DMB.is_page_number_font (abilityBodySpan t) = false ∧
    DMB.is_variant_label_font (abilityBodySpan t) = false ∧
    DMB.is_meta_font (abilityBodySpan t) = false ∧
    DMB.is_stat_label_font (abilityBodySpan t) = false ∧
    DMB.is_ability_label_font (abilityBodySpan t) = false ∧
    DMB.is_body_text_font (abilityBodySpan t) = true ∧
    pyIn "W5Plain" (abilityBodySpan t).font = true ∧
    pyIn "Itali" (abilityBodySpan t).font = false := ⟨rfl, rfl, rfl, rfl, rfl, rfl, rfl, rfl, rfl⟩

/-! ### Flush-function facts used by the C2 development -/

lemma flushStat_noop (σ : PCState) (h1 : σ.curStatLabel = none)
    (h2 : σ.curStatValues = []) : flushStat σ = σ := by
  unfold flushStat
  rw [h1]
  simp only
  rw [show ({ σ with curStatLabel := none, curStatValues := [] } : PCState) = σ from by
    rw [← h1, ← h2]]

lemma flushAbility_noop (σ : PCState) (h1 : σ.curAbilityLabel = none)
    (h2 : σ.curAbilityText = []) : flushAbility σ = σ := by
  unfold flushAbility
  rw [h1]
  simp only
  rw [show ({ σ with curAbilityLabel := none, curAbilityText := [] } : PCState) = σ from by
    rw [← h1, ← h2]]

lemma flushAbility_pending (σ : PCState) (l : String) (hl : σ.curAbilityLabel = some l)
    (hne : l ≠ "") (htext : σ.curAbilityText ≠ [])
    (hactive : σ.activeVariantLabel.isSome = true) :
    flushAbility σ =
      { σ with curAbilityLabel := none, curAbilityText := [],
               curVariantAbilities := σ.curVariantAbilities ++
                 [⟨pyRstripColon l, mkAbilityText σ.curAbilityText⟩] } := by
  unfold flushAbility
  rw [hl]
  simp [hne, htext, hactive]

lemma flushAbility_fields (σ : PCState) :
    (flushAbility σ).state = σ.state ∧
    (flushAbility σ).curStatLabel = σ.curStatLabel ∧
    (flushAbility σ).curStatValues = σ.curStatValues ∧
    (flushAbility σ).curVariantLabel = σ.curVariantLabel ∧
    (flushAbility σ).curVariantMeta = σ.curVariantMeta ∧
    (flushAbility σ).curVariantStats = σ.curVariantStats ∧
    (flushAbility σ).activeVariantLabel = σ.activeVariantLabel ∧
    (flushAbility σ).variants = σ.variants ∧
    (flushAbility σ).creatureMeta = σ.creatureMeta ∧
    (flushAbility σ).creatureStats = σ.creatureStats := by
  unfold flushAbility
  rcases hl : σ.curAbilityLabel with _ | l
  · simp
  · by_cases hc : l ≠ "" ∧ σ.curAbilityText ≠ []
    · by_cases ha : σ.activeVariantLabel.isSome <;> simp [hc, ha]
    · simp [hc]

/-! ### Step lemmas for the builder spans -/

lemma pcStep_statLabel (σ : PCState) (l : String) (hl : pyStrip l ≠ "") :
    pcStep σ (statLabelSpan l) =
      { flushStat σ with curStatLabel := some (pyStrip l), state := .stats } := by
  unfold pcStep
  simp [hl]

lemma pcStep_statValue (σ : PCState) (v : String) (hv : pyStrip v ≠ "")
    (hstate : σ.state = PState.stats) (hlab : optTruthy σ.curStatLabel = true) :
    pcStep σ (statValueSpan v) =
      { σ with curStatValues := σ.curStatValues ++ [pyStrip v] } := by
  unfold pcStep
  simp [hv, hstate, hlab, PState.isStats]

lemma pcStep_abilityLabel_ab (σ : PCState) (n : String) (hn : pyStrip n ≠ "")
    (hstate : σ.state = PState.abilities) :
    pcStep σ (abilityLabelSpan n) =
      { flushAbility σ with curAbilityLabel := some (pyStrip n) } := by
  unfold pcStep
  simp [hn, hstate, PState.isStats, PState.isAbilities]

lemma pcStep_abilityBody (σ : PCState) (t : String) (ht : pyStrip t ≠ "")
    (hstate : σ.state = PState.abilities) (hlab : optTruthy σ.curAbilityLabel = true) :
    pcStep σ (abilityBodySpan t) =
      { σ with curAbilityText := σ.curAbilityText ++ [pyStrip t] } := by
  unfold pcStep
  simp [ht, hstate, hlab, PState.isStats, PState.isAbilities]

lemma pcStep_variantLabel_ab (σ : PCState) (l : String) (hl : pyStrip l ≠ "")
    (hstate : σ.state = PState.abilities) :
    pcStep σ (variantLabelSpan l) =
      { flushVariant (flushAbility σ) with
          curVariantLabel := some (pyStrip l)
          activeVariantLabel := some (pyStrip l)
          state := .stats } := by
  unfold pcStep
  simp [hl, hstate, PState.isStats, PState.isAbilities]

/-! ### The ability-routing induction -/

lemma abilityFoldPending (a : List (String × String)) :
    ∀ (σ : PCState) (l : String), σ.state = PState.abilities →
      σ.activeVariantLabel.isSome = true →
      σ.curAbilityLabel = some l → l ≠ "" → σ.curAbilityText ≠ [] →
      (∀ p ∈ a, pyStrip p.1 ≠ "" ∧ pyStrip p.2 ≠ "") →
      flushAbility (List.foldl pcStep σ (abilitySpans a)) =
        { σ with curAbilityLabel := none, curAbilityText := [],
                 curVariantAbilities := σ.curVariantAbilities ++
                   (⟨pyRstripColon l, mkAbilityText σ.curAbilityText⟩ :: a.map mkAb) } := by
  induction a with
  | nil =>
      intro σ l hstate hactive hlab hne htext _
      simp only [abilitySpans, List.flatMap_nil, List.foldl_nil]
      rw [flushAbility_pending σ l hlab hne htext hactive]
      simp
  | cons p rest ih =>
      intro σ l hstate hactive hlab hne htext ha
      have hp := ha p (List.mem_cons_self _ _)
      have hrest : ∀ q ∈ rest, pyStrip q.1 ≠ "" ∧ pyStrip q.2 ≠ "" :=
        fun q hq => ha q (List.mem_cons_of_mem _ hq)
      have hspans : abilitySpans (p :: rest) =
          abilityLabelSpan p.1 :: abilityBodySpan p.2 :: abilitySpans rest := by
        simp [abilitySpans]
      rw [hspans, List.foldl_cons, List.foldl_cons]
      rw [pcStep_abilityLabel_ab σ p.1 hp.1 hstate]
      rw [flushAbility_pending σ l hlab hne htext hactive]
      set σ1 : PCState :=
        { σ with curAbilityLabel := some (pyStrip p.1), curAbilityText := [],
                 curVariantAbilities := σ.curVariantAbilities ++
                   [⟨pyRstripColon l, mkAbilityText σ.curAbilityText⟩] } with hσ1
      have hs1 : σ1.state = PState.abilities := hstate
      have hs2 : optTruthy σ1.curAbilityLabel = true := by
        simp [hσ1, optTruthy, hp.1]
      rw [pcStep_abilityBody σ1 p.2 hp.2 hs1 hs2]
      set σ2 : PCState := { σ1 with curAbilityText := σ1.curAbilityText ++ [pyStrip p.2] }
        with hσ2
      have hps2 : σ2.state = PState.abilities := hstate
      have hpa2 : σ2.activeVariantLabel.isSome = true := hactive
      have hpl2 : σ2.curAbilityLabel = some (pyStrip p.1) := rfl
      have hpt2 : σ2.curAbilityText ≠ [] := by simp [hσ2, hσ1]
      rw [ih σ2 (pyStrip p.1) hps2 hpa2 hpl2 hp.1 hpt2 hrest]
      simp only [hσ2, hσ1, mkAb]
      simp [mkAb, List.append_assoc]

lemma flushStat_fields (σ : PCState) :
    (flushStat σ).state = σ.state ∧
    (flushStat σ).curAbilityLabel = σ.curAbilityLabel ∧
    (flushStat σ).curAbilityText = σ.curAbilityText ∧
    (flushStat σ).curVariantLabel = σ.curVariantLabel ∧
    (flushStat σ).curVariantMeta = σ.curVariantMeta ∧
    (flushStat σ).curVariantAbilities = σ.curVariantAbilities ∧
    (flushStat σ).activeVariantLabel = σ.activeVariantLabel ∧
    (flushStat σ).variants = σ.variants ∧
    (flushStat σ).creatureMeta = σ.creatureMeta ∧
    (flushStat σ).creatureAbilities = σ.creatureAbilities := by
  unfold flushStat
  rcases hl : σ.curStatLabel with _ | l
  · simp
  · by_cases hc : l ≠ "" ∧ σ.curStatValues ≠ []
    · by_cases hv : optTruthy σ.curVariantLabel <;> simp [hc, hv]
    · simp [hc]

lemma flushStat_pending (σ : PCState) (l : String) (hl : σ.curStatLabel = some l)
    (hne : l ≠ "") (hvals : σ.curStatValues ≠ [])
    (hvar : optTruthy σ.curVariantLabel = true) :
    flushStat σ =
      { σ with curStatLabel := none, curStatValues := [],
               curVariantStats := dictInsert σ.curVariantStats (compactStatKey l)
                 (pyStrip (String.intercalate " " σ.curStatValues)) } := by
  unfold flushStat
  rw [hl]
  simp [hne, hvals, hvar]

lemma flushVariant_pending (σ : PCState) (v : String) (hl : σ.curVariantLabel = some v)
    (hne : v ≠ "") (hstats : σ.curVariantStats ≠ []) (hmeta : σ.curVariantMeta = none) :
    flushVariant σ =
      { σ with variants := σ.variants ++
                 [⟨v, none, σ.curVariantStats, σ.curVariantAbilities⟩],
               curVariantLabel := none, curVariantMeta := none,
               curVariantStats := [], curVariantAbilities := [],
               activeVariantLabel := none } := by
  unfold flushVariant
  rw [hl, hmeta]
  simp [optTruthy, hne, hstats]

lemma pcStep_variantLabel_st (σ : PCState) (l : String) (hl : pyStrip l ≠ "")
    (hstate : σ.state = PState.stats) :
    pcStep σ (variantLabelSpan l) =
      { flushVariant (flushStat σ) with
          curVariantLabel := some (pyStrip l)
          activeVariantLabel := some (pyStrip l)
          state := .stats } := by
  unfold pcStep
  have hfs : (flushStat σ).state = σ.state := (flushStat_fields σ).1
  simp [hl, hstate, hfs, PState.isStats, PState.isAbilities]

/-! ### The two-variant adventurer stream -/

/-- The parser state right after a variant label has been consumed. -/
def varStart (vars : List Variant) (v : String) : PCState :=
  { creatureMeta := "", creatureStats := [], creatureAbilities := [], variants := vars,
    state := .stats, curStatLabel := none, curStatValues := [],
    curAbilityLabel := none, curAbilityText := [], curVariantLabel := some v,
    curVariantMeta := none, curVariantStats := [], curVariantAbilities := [],
    activeVariantLabel := some v }

/-- The parser state with the current variant's stat block flushed and
its abilities accumulated, just before the variant itself is flushed. -/
def preVar (vars : List Variant) (v : String) (abs : List Ability) (st : PState) : PCState :=
  { creatureMeta := "", creatureStats := [], creatureAbilities := [], variants := vars,
    state := st, curStatLabel := none, curStatValues := [],
    curAbilityLabel := none, curAbilityText := [], curVariantLabel := some v,
    curVariantMeta := none, curVariantStats := [("level", "3")],
    curVariantAbilities := abs, activeVariantLabel := some v }

lemma pcStep_abilityLabel_st (σ : PCState) (n : String) (hn : pyStrip n ≠ "")
    (hstate : σ.state = PState.stats)
    (hvar : optTruthy (flushStat σ).curVariantLabel = true) :
    pcStep σ (abilityLabelSpan n) =
      { flushAbility { flushStat σ with
          activeVariantLabel := (flushStat σ).curVariantLabel
          state := .abilities } with curAbilityLabel := some (pyStrip n) } := by
  unfold pcStep
  simp [hn, hstate, hvar, PState.isStats, PState.isAbilities]

/-- Parser state after the stat label "Level" of the current variant. -/
def stA (vars : List Variant) (v : String) : PCState :=
  { creatureMeta := "", creatureStats := [], creatureAbilities := [], variants := vars,
    state := .stats, curStatLabel := some "Level", curStatValues := [],
    curAbilityLabel := none, curAbilityText := [], curVariantLabel := some v,
    curVariantMeta := none, curVariantStats := [], curVariantAbilities := [],
    activeVariantLabel := some v }

/-- Parser state after the stat value "3" (stat entry still pending). -/
def stB (vars : List Variant) (v : String) : PCState :=
  { creatureMeta := "", creatureStats := [], creatureAbilities := [], variants := vars,
    state := .stats, curStatLabel := some "Level", curStatValues := ["3"],
    curAbilityLabel := none, curAbilityText := [], curVariantLabel := some v,
    curVariantMeta := none, curVariantStats := [], curVariantAbilities := [],
    activeVariantLabel := some v }

/-- Parser state after the first ability label of the current variant. -/
def abA (vars : List Variant) (v n : String) : PCState :=
  { creatureMeta := "", creatureStats := [], creatureAbilities := [], variants := vars,
    state := .abilities, curStatLabel := none, curStatValues := [],
    curAbilityLabel := some n, curAbilityText := [], curVariantLabel := some v,
    curVariantMeta := none, curVariantStats := [("level", "3")],
    curVariantAbilities := [], activeVariantLabel := some v }

/-- Parser state after the first ability's body text. -/
def abB (vars : List Variant) (v n t : String) : PCState :=
  { creatureMeta := "", creatureStats := [], creatureAbilities := [], variants := vars,
    state := .abilities, curStatLabel := none, curStatValues := [],
    curAbilityLabel := some n, curAbilityText := [t], curVariantLabel := some v,
    curVariantMeta := none, curVariantStats := [("level", "3")],
    curVariantAbilities := [], activeVariantLabel := some v }

lemma statAbilityFold (vars : List Variant) (v : String) (hv : v ≠ "")
    (a : List (String × String))
    (ha : ∀ p ∈ a, pyStrip p.1 ≠ "" ∧ pyStrip p.2 ≠ "") :
    (a = [] ∧
      List.foldl pcStep (varStart vars v)
          (statLabelSpan "Level" :: statValueSpan "3" :: abilitySpans a) = stB vars v) ∨
    (a ≠ [] ∧
      (List.foldl pcStep (varStart vars v)
          (statLabelSpan "Level" :: statValueSpan "3" :: abilitySpans a)).state =
        PState.abilities ∧
      (List.foldl pcStep (varStart vars v)
          (statLabelSpan "Level" :: statValueSpan "3" :: abilitySpans a)).curStatLabel =
        none ∧
      (List.foldl pcStep (varStart vars v)
          (statLabelSpan "Level" :: statValueSpan "3" :: abilitySpans a)).curStatValues =
        [] ∧
      flushAbility (List.foldl pcStep (varStart vars v)
          (statLabelSpan "Level" :: statValueSpan "3" :: abilitySpans a)) =
        preVar vars v (a.map mkAb) PState.abilities) := by
  rw [List.foldl_cons, List.foldl_cons]
  have hstep1 : pcStep (varStart vars v) (statLabelSpan "Level") = stA vars v := by
    rw [pcStep_statLabel _ _ (by decide), flushStat_noop _ rfl rfl]
    have he : pyStrip "Level" = "Level" := rfl
    simp [varStart, stA, he]
  have hstep2 : pcStep (stA vars v) (statValueSpan "3") = stB vars v := by
    rw [pcStep_statValue (stA vars v) "3" (by decide) rfl rfl]
    have he : pyStrip "3" = "3" := rfl
    simp [stA, stB, he]
  rw [hstep1, hstep2]
  cases a with
  | nil =>
      left
      refine ⟨rfl, ?_⟩
      simp [abilitySpans]
  | cons p rest =>
      right
      have hp := ha p (List.mem_cons_self _ _)
      have hrest : ∀ q ∈ rest, pyStrip q.1 ≠ "" ∧ pyStrip q.2 ≠ "" :=
        fun q hq => ha q (List.mem_cons_of_mem _ hq)
      have hspans : abilitySpans (p :: rest) =
          abilityLabelSpan p.1 :: abilityBodySpan p.2 :: abilitySpans rest := by
        simp [abilitySpans]
      rw [hspans, List.foldl_cons, List.foldl_cons]
      have hfsp : flushStat (stB vars v) = preVar vars v [] PState.stats := by
        rw [flushStat_pending (stB vars v) "Level" rfl (by decide) (by simp [stB])
          (by simp [stB, optTruthy, hv])]
        have hd : dictInsert ([] : List (String × String)) (compactStatKey "Level")
            (pyStrip (String.intercalate " " ["3"])) = [("level", "3")] := rfl
        simp [stB, preVar, hd]
      have hstep3 : pcStep (stB vars v) (abilityLabelSpan p.1) =
          abA vars v (pyStrip p.1) := by
        rw [pcStep_abilityLabel_st (stB vars v) p.1 hp.1 rfl
          (by rw [hfsp]; simp [preVar, optTruthy, hv])]
        rw [hfsp]
        rw [flushAbility_noop _ (by simp [preVar]) (by simp [preVar])]
        simp [preVar, abA]
      have hstep4 : pcStep (abA vars v (pyStrip p.1)) (abilityBodySpan p.2) =
          abB vars v (pyStrip p.1) (pyStrip p.2) := by
        rw [pcStep_abilityBody (abA vars v (pyStrip p.1)) p.2 hp.2 rfl
          (by simp [abA, optTruthy, hp.1])]
        simp [abA, abB]
      rw [hstep3, hstep4]
      have hfold := abilityFoldPending rest (abB vars v (pyStrip p.1) (pyStrip p.2))
        (pyStrip p.1) rfl rfl rfl hp.1 (by simp [abB]) hrest
      have hres : flushAbility (List.foldl pcStep (abB vars v (pyStrip p.1) (pyStrip p.2))
          (abilitySpans rest)) = preVar vars v ((p :: rest).map mkAb) PState.abilities := by
        rw [hfold]
        simp [abB, preVar, mkAb]
      have hfields := flushAbility_fields (List.foldl pcStep
        (abB vars v (pyStrip p.1) (pyStrip p.2)) (abilitySpans rest))
      refine ⟨by simp, ?_, ?_, ?_, hres⟩
      · have h1 := hfields.1
        rw [hres] at h1
        exact h1.symm.trans rfl
      · have h1 := hfields.2.1
        rw [hres] at h1
        exact h1.symm.trans rfl
      · have h1 := hfields.2.2.1
        rw [hres] at h1
        exact h1.symm.trans rfl

lemma flushStat_stB (vars : List Variant) (v : String) (hv : v ≠ "") :
    flushStat (stB vars v) = preVar vars v [] PState.stats := by
  rw [flushStat_pending (stB vars v) "Level" rfl (by decide) (by simp [stB])
    (by simp [stB, optTruthy, hv])]
  have hd : dictInsert ([] : List (String × String)) (compactStatKey "Level")
      (pyStrip (String.intercalate " " ["3"])) = [("level", "3")] := rfl
  simp [stB, preVar, hd]

lemma flushVariant_preVar (vars : List Variant) (v : String) (hv : v ≠ "")
    (abs : List Ability) (st : PState) :
    flushVariant (preVar vars v abs st) =
      { creatureMeta := "", creatureStats := [], creatureAbilities := [],
        variants := vars ++ [⟨v, none, [("level", "3")], abs⟩],
        state := st, curStatLabel := none, curStatValues := [],
        curAbilityLabel := none, curAbilityText := [], curVariantLabel := none,
        curVariantMeta := none, curVariantStats := [], curVariantAbilities := [],
        activeVariantLabel := none } := by
  rw [flushVariant_pending (preVar vars v abs st) v rfl hv (by simp [preVar]) rfl]
  simp [preVar]

lemma nextVariant (vars : List Variant) (v : String) (hv : v ≠ "")
    (a : List (String × String))
    (ha : ∀ p ∈ a, pyStrip p.1 ≠ "" ∧ pyStrip p.2 ≠ "")
    (w : String) (hw : pyStrip w ≠ "") :
    pcStep (List.foldl pcStep (varStart vars v)
        (statLabelSpan "Level" :: statValueSpan "3" :: abilitySpans a))
      (variantLabelSpan w) =
      varStart (vars ++ [⟨v, none, [("level", "3")], a.map mkAb⟩]) (pyStrip w) := by
  rcases statAbilityFold vars v hv a ha with ⟨hnil, heq⟩ | ⟨hne, hst, _, _, hflush⟩
  · rw [heq, pcStep_variantLabel_st _ _ hw rfl, flushStat_stB vars v hv,
      flushVariant_preVar vars v hv [] PState.stats]
    subst hnil
    simp [varStart]
  · rw [pcStep_variantLabel_ab _ _ hw hst, hflush,
      flushVariant_preVar vars v hv (a.map mkAb) PState.abilities]
    simp [varStart]

lemma finishBlock (vars : List Variant) (v : String) (hv : v ≠ "")
    (a : List (String × String))
    (ha : ∀ p ∈ a, pyStrip p.1 ≠ "" ∧ pyStrip p.2 ≠ "") :
    (pcFinalize (List.foldl pcStep (varStart vars v)
        (statLabelSpan "Level" :: statValueSpan "3" :: abilitySpans a))).creatureMeta = "" ∧
    (pcFinalize (List.foldl pcStep (varStart vars v)
        (statLabelSpan "Level" :: statValueSpan "3" :: abilitySpans a))).creatureStats = [] ∧
    (pcFinalize (List.foldl pcStep (varStart vars v)
        (statLabelSpan "Level" :: statValueSpan "3" :: abilitySpans a))).creatureAbilities = [] ∧
    (pcFinalize (List.foldl pcStep (varStart vars v)
        (statLabelSpan "Level" :: statValueSpan "3" :: abilitySpans a))).variants =
      vars ++ [⟨v, none, [("level", "3")], a.map mkAb⟩] := by
  rcases statAbilityFold vars v hv a ha with ⟨hnil, heq⟩ | ⟨hne, hst, hsl, hsv, hflush⟩
  · rw [heq]
    unfold pcFinalize
    rw [flushStat_stB vars v hv]
    have hna : (preVar vars v [] PState.stats).state.isAbilities = false := rfl
    rw [hna]
    simp only [Bool.false_eq_true, if_false]
    rw [flushVariant_preVar vars v hv [] PState.stats]
    subst hnil
    simp
  · unfold pcFinalize
    rw [flushStat_noop _ hsl hsv]
    rw [show (List.foldl pcStep (varStart vars v)
        (statLabelSpan "Level" :: statValueSpan "3" :: abilitySpans a)).state.isAbilities =
        true from by rw [hst]; rfl]
    simp only [if_true]
    rw [hflush, flushVariant_preVar vars v hv (a.map mkAb) PState.abilities]
    simp

/-- C2: for an adventurer stream holding two variant blocks, each a
variant label followed by a stat block and then ability label/body spans,
every ability is attached to the abilities list of the variant whose stat
block most recently preceded it: the first block's abilities land on the
first variant, the second block's on the second, and the top-level
creature's abilities list stays empty.  Ability labels do not close the
active variant. -/
theorem C2_variant_ability_scoping (nm v1 v2 : String)
    (a1 a2 : List (String × String))
    (hv1 : pyStrip v1 ≠ "") (hv2 : pyStrip v2 ≠ "")
    (ha1 : ∀ p ∈ a1, pyStrip p.1 ≠ "" ∧ pyStrip p.2 ≠ "")
    (ha2 : ∀ p ∈ a2, pyStrip p.1 ≠ "" ∧ pyStrip p.2 ≠ "") :
    parse_compact_creature nm (variantBlock v1 a1 ++ variantBlock v2 a2) =
      some { name := nm, meta := "", stats := [], abilities := [], description := "",
             variants := [⟨pyStrip v1, none, [("level", "3")], a1.map mkAb⟩,
                          ⟨pyStrip v2, none, [("level", "3")], a2.map mkAb⟩] } := by
  unfold parse_compact_creature
  have hshape : variantBlock v1 a1 ++ variantBlock v2 a2 =
      variantLabelSpan v1 ::
        ((statLabelSpan "Level" :: statValueSpan "3" :: abilitySpans a1) ++
          (variantLabelSpan v2 ::
            (statLabelSpan "Level" :: statValueSpan "3" :: abilitySpans a2))) := by
    simp [variantBlock]
  rw [hshape, List.foldl_cons]
  have h0 : pcStep pcInit (variantLabelSpan v1) = varStart [] (pyStrip v1) := by
    unfold pcStep
    simp [hv1, pcInit, varStart, PState.isStats, PState.isAbilities, flushVariant, optTruthy]
  rw [h0, List.foldl_append, List.foldl_cons]
  rw [nextVariant [] (pyStrip v1) hv1 a1 ha1 v2 hv2]
  have hfin := finishBlock ([⟨pyStrip v1, none, [("level", "3")], a1.map mkAb⟩])
    (pyStrip v2) hv2 a2 ha2
  rw [show ([] : List Variant) ++ [(⟨pyStrip v1, none, [("level", "3")], a1.map mkAb⟩ : Variant)] =
    [⟨pyStrip v1, none, [("level", "3")], a1.map mkAb⟩] from by simp]
  unfold pcResult
  rw [hfin.1, hfin.2.1, hfin.2.2.1, hfin.2.2.2]
  simp

/-- C2 witness: the theorem applied to two concrete variant blocks with
one ability each. -/
theorem C2_witness :
    parse_compact_creature "Bard"
        (variantBlock "Level 3 Bard" [("Song:", "sings well")] ++
          variantBlock "Level 5 Bard" [("Charm:", "charms")]) =
      some { name := "Bard", meta := "", stats := [], abilities := [], description := "",
             variants := [⟨"Level 3 Bard", none, [("level", "3")],
                            [⟨"Song", "sings well"⟩]⟩,
                          ⟨"Level 5 Bard", none, [("level", "3")],
                            [⟨"Charm", "charms"⟩]⟩] } := by
  have h := C2_variant_ability_scoping "Bard" "Level 3 Bard" "Level 5 Bard"
    [("Song:", "sings well")] [("Charm:", "charms")]
    (by decide) (by decide) (by decide) (by decide)
  rw [h]
  decide

/-! ## `extract_mortals` — merge of the shared block into each mortal -/

/-- One individual mortal entry as assembled by pass 2 of
`extract_mortals` (after `save_mortal` collapsed the description parts). -/
structure MortalEntry where
  name : String
  description_parts : List String
  flavor : List Ability
  sections : List (String × List (String × String))
deriving Repr, DecidableEq

/-- One output record of `extract_mortals`; `none` models an absent key,
and an `abilities` key is present exactly when the list is non-empty. -/
structure MortalRecord where
  name : String
  description : Option String
  meta : Option String
  stats : Option (List (String × String))
  abilities : List Ability
  sections : Option (List (String × List (String × String)))
deriving Repr, DecidableEq

/-- The output-building loop of `extract_mortals` (its final `for m in
mortals` block): each record combines the mortal's own name, description
and sections with the shared meta, a copy of the shared stats map
(`dict(shared_stats)` — value semantics here), and an abilities list of
the mortal's own flavor abilities followed by the shared abilities. -/
def buildMortalRecord (sharedMeta : String) (sharedStats : List (String × String))
    (sharedAbilities : List Ability) (m : MortalEntry) : MortalRecord :=
  { name := m.name
    description :=
      match m.description_parts with
      | [] => none
      | d :: _ => some (pyCleanSoftHyphen d)
    meta := if sharedMeta ≠ "" then some sharedMeta else none
    stats := if sharedStats ≠ [] then some sharedStats else none
    abilities :=
      if m.flavor ≠ [] then
        (if sharedAbilities ≠ [] then m.flavor ++ sharedAbilities else m.flavor)
      else (if sharedAbilities ≠ [] then sharedAbilities else [])
    sections := if m.sections ≠ [] then some m.sections else none }

/-- The whole merge: one output record per parsed mortal. -/
def extract_mortals_merge (sharedMeta : String) (sharedStats : List (String × String))
    (sharedAbilities : List Ability) (ms : List MortalEntry) : List MortalRecord :=
  ms.map (buildMortalRecord sharedMeta sharedStats sharedAbilities)

/-- C3: with shared stats {level: "1", hp: "1d4"} and two mortals each
carrying one flavor ability, both output records hold the same shared
stats map (a per-record copy — value semantics in this model), and each
record's abilities list is its own flavor ability first, then the shared
abilities appended. -/
theorem C3_mortals_merge (sharedMeta : String) (sa : List Ability) (f1 f2 : Ability)
    (m1 m2 : MortalEntry) (h1 : m1.flavor = [f1]) (h2 : m2.flavor = [f2]) :
    ∃ r1 r2,
      extract_mortals_merge sharedMeta [("level", "1"), ("hp", "1d4")] sa [m1, m2] =
        [r1, r2] ∧
      r1.stats = some [("level", "1"), ("hp", "1d4")] ∧
      r2.stats = some [("level", "1"), ("hp", "1d4")] ∧
      r1.stats = r2.stats ∧
      r1.abilities = f1 :: sa ∧
      r2.abilities = f2 :: sa := by
  refine ⟨buildMortalRecord sharedMeta [("level", "1"), ("hp", "1d4")] sa m1,
          buildMortalRecord sharedMeta [("level", "1"), ("hp", "1d4")] sa m2,
          rfl, by simp [buildMortalRecord], by simp [buildMortalRecord],
          by simp [buildMortalRecord], ?_, ?_⟩
  · by_cases hsa : sa = [] <;> simp [buildMortalRecord, h1, hsa]
  · by_cases hsa : sa = [] <;> simp [buildMortalRecord, h2, hsa]

/-- C3 witness: the merge theorem at two concrete mortals. -/
theorem C3_witness :
    ∃ r1 r2,
      extract_mortals_merge "Human" [("level", "1"), ("hp", "1d4")]
          [⟨"Mortal", "dies"⟩]
          [⟨"Angler", ["Fishes."], [⟨"Hook", "catches fish"⟩], []⟩,
           ⟨"Beggar", ["Begs."], [⟨"Cup", "asks for alms"⟩], []⟩] = [r1, r2] ∧
      r1.stats = some [("level", "1"), ("hp", "1d4")] ∧
      r2.stats = some [("level", "1"), ("hp", "1d4")] ∧
      r1.stats = r2.stats ∧
      r1.abilities = ⟨"Hook", "catches fish"⟩ :: [⟨"Mortal", "dies"⟩] ∧
      r2.abilities = ⟨"Cup", "asks for alms"⟩ :: [⟨"Mortal", "dies"⟩] :=
  C3_mortals_merge "Human" [⟨"Mortal", "dies"⟩] ⟨"Hook", "catches fish"⟩
    ⟨"Cup", "asks for alms"⟩
    ⟨"Angler", ["Fishes."], [⟨"Hook", "catches fish"⟩], []⟩
    ⟨"Beggar", ["Begs."], [⟨"Cup", "asks for alms"⟩], []⟩
    (by decide) (by decide)

/-! ## `extract_dcb_treasure.py` — font-role classifiers -/

namespace DCB

def is_section_header (s : Span) : Bool :=
  pyIn "AlegreyaSans" s.font && decide ((13 : ℚ) < s.size)

def is_column_header (s : Span) : Bool :=
  pyIn "W7Bold" s.font && !(pyIn "Italic" s.font) &&
    decide (q9p5 < s.size) && decide (s.size < q10p5)

def is_row_label (s : Span) : Bool :=
  pyIn "W7Bold" s.font && !(pyIn "Italic" s.font) &&
    decide ((8 : ℚ) ≤ s.size) && decide (s.size ≤ 9)

def is_cell_value (s : Span) : Bool :=
  pyIn "W5Plain" s.font && decide ((8 : ℚ) ≤ s.size) && decide (s.size ≤ 9) &&
    !(pyIn "Itali" s.font)

def is_cell_value_italic (s : Span) : Bool :=
  pyIn "W5Plain" s.font && pyIn "Itali" s.font &&
    decide ((8 : ℚ) ≤ s.size) && decide (s.size ≤ 9)

def is_page_ref (s : Span) : Bool :=
  pyIn "W7BoldItalic" s.font && decide ((8 : ℚ) ≤ s.size) && decide (s.size ≤ 9)

def is_page_title (s : Span) : Bool :=
  pyIn "Winona" s.font && decide ((40 : ℚ) < s.size)

def is_subsection_title (s : Span) : Bool :=
  pyIn "AlverataBl" s.font && decide ((14 : ℚ) < s.size)

def is_page_header (s : Span) : Bool :=
  pyIn "Alverata-Bold" s.font && decide (s.size < q8p5)

def is_page_number (s : Span) : Bool :=
  pyIn "W5Plain" s.font && decide (q10p5 < s.size) && decide (s.size < 12)

def is_body_text (s : Span) : Bool :=
  pyIn "W5Plain" s.font && decide ((9 : ℚ) < s.size) && decide (s.size < 10)

def is_body_bold (s : Span) : Bool :=
  pyIn "W7Bold" s.font && !(pyIn "Italic" s.font) &&
    decide ((9 : ℚ) < s.size) && decide (s.size < 10)

def is_description_font (s : Span) : Bool := pyIn "IM_FELL" s.font

def is_sidebar_header (s : Span) : Bool := pyIn "W9Black" s.font

def is_item_subsection_title (s : Span) : Bool :=
  pyIn "Alverata-Bold" s.font && decide ((11 : ℚ) < s.size) && decide (s.size < 14)

end DCB

/-! ## Documents and common helpers for the treasure extractor -/

/-- A PDF document: its pages. `getPage` models `doc[i]` on a document
with enough pages (the page-count bound is out of every claim's scope). -/
abbrev Doc := List Page

def getPage (d : Doc) (i : Nat) : Page := d.getD i []

def docLen (d : Doc) : Nat := d.length

/-- `text.startswith(pre)`. -/
def pyStartsWith (s pre : String) : Bool := pre.toList.isPrefixOf s.toList

/-- Match `^C\d+$`-style row labels: the letter then at least one digit. -/
def matchLetterRow (letter : Char) (t : String) : Bool :=
  match t.toList with
  | c :: ds => c = letter && !ds.isEmpty && ds.all pyIsDigit
  | [] => false

/-- Match `^\d+[–\-]\d+$`. -/
def matchRange2 (t : String) : Bool :=
  let l := t.toList
  let ds := l.takeWhile pyIsDigit
  match l.drop ds.length with
  | c :: rest => !ds.isEmpty && (c = '–' || c = '-') && !rest.isEmpty && rest.all pyIsDigit
  | [] => false

/-- Match `^\d+[–\-]?\d*$`. -/
def matchRangeOpt (t : String) : Bool :=
  let l := t.toList
  let ds := l.takeWhile pyIsDigit
  match l.drop ds.length with
  | c :: rest => !ds.isEmpty && (c = '–' || c = '-') && rest.all pyIsDigit
  | [] => !ds.isEmpty

/-- Groups of `^(\d+)[–\-](\d+)$`. -/
def rangeGroups (t : String) : Option (List Char × List Char) :=
  let l := t.toList
  let ds := l.takeWhile pyIsDigit
  match l.drop ds.length with
  | c :: rest =>
      if !ds.isEmpty && (c = '–' || c = '-') && !rest.isEmpty && rest.all pyIsDigit then
        some (ds, rest)
      else none
  | [] => none

/-- Match `^(\d+)%\s*(.*)` (magic-items row): chance and the rest. -/
def matchChanceRest (s : String) : Option (Int × String) :=
  let t := s.toList
  let ds := t.takeWhile pyIsDigit
  if ds.isEmpty then none
  else
    match t.drop ds.length with
    | '%' :: rest =>
        let ws := rest.takeWhile pyIsSpace
        some ((natOfDigits ds : Int), String.mk (rest.drop ws.length))
    | _ => none

/-- `spans[a+1:b]` with Python truthiness on the optional end index
(`if b` is false both for `None` and for index 0). -/
def sliceAfter (spans : List Span) (a : Nat) (b : Option Nat) : List Span :=
  match b with
  | some r => if r ≠ 0 then (spans.take r).drop (a + 1) else spans.drop (a + 1)
  | none => spans.drop (a + 1)

/-- Generic header search: the index of the LAST span satisfying `isA`
seen before the FIRST span satisfying `isB` (which breaks the loop), in
`(start, end)` form.  Both predicates receive the span and its stripped
text. -/
def pairSearch (isA isB : Span → String → Bool) :
    List Span → Nat → Option Nat → Option Nat × Option Nat
  | [], _, acc => (acc, none)
  | s :: rest, i, acc =>
      let t := pyStrip s.text
      if isA s t then pairSearch isA isB rest (i + 1) (some i)
      else if isB s t then (acc, some i)
      else pairSearch isA isB rest (i + 1) acc

/-- Shared row accumulator for the hoard-table loops. -/
structure RowAcc where
  rows : List (String × List String)
  label : Option String
  cells : List String
deriving Repr, DecidableEq

/-- `flush_row()` of the coins/riches/magic-items loops: keep the row when
the label is truthy and starts with the table's letter. -/
def rowFlush (pre : String) (acc : RowAcc) : RowAcc :=
  match acc.label with
  | some l =>
      if l ≠ "" ∧ pyStartsWith l pre then
        { rows := acc.rows ++ [(l, acc.cells)], label := none, cells := [] }
      else { acc with label := none, cells := [] }
  | none => { acc with label := none, cells := [] }

/-- Loop body of the COINS row collection (it has the extra
bold-footnote flush branch). -/
def coinsRowStep (letter : Char) (pre : String) (acc : RowAcc) (sp : Span) : RowAcc :=
  let text := pyStrip sp.text
  if text = "" then acc
  else if DCB.is_column_header sp then acc
  else if DCB.is_row_label sp && matchLetterRow letter text then
    { rowFlush pre acc with label := some text }
  else if (DCB.is_cell_value sp || DCB.is_cell_value_italic sp) && optTruthy acc.label then
    { acc with cells := acc.cells ++ [text] }
  else if DCB.is_row_label sp && !(matchLetterRow letter text) then
    rowFlush pre acc
  else acc

/-- Loop body of the RICHES / MAGIC ITEMS row collection (no footnote
branch). -/
def plainRowStep (letter : Char) (acc : RowAcc) (sp : Span) : RowAcc :=
  let text := pyStrip sp.text
  if text = "" then acc
  else if DCB.is_column_header sp then acc
  else if DCB.is_row_label sp && matchLetterRow letter text then
    { rowFlush (String.mk [letter]) acc with label := some text }
  else if (DCB.is_cell_value sp || DCB.is_cell_value_italic sp) && optTruthy acc.label then
    { acc with cells := acc.cells ++ [text] }
  else acc

/-- `extract_coins_table(doc)`, as (warnings printed, parsed rows). -/
def extract_coins_table (doc : Doc) : List String × List CoinsRow :=
  let spans := collect_spans (getPage doc 394)
  let res := pairSearch
    (fun s t => DCB.is_section_header s && decide (t = "COINS"))
    (fun s t => DCB.is_section_header s && decide (t = "RICHES")) spans 0 none
  match res.1 with
  | none => (["  Warning: COINS header not found"], [])
  | some ci =>
      let tableSpans := sliceAfter spans ci res.2
      let acc := rowFlush "C" (tableSpans.foldl (coinsRowStep 'C' "C") ⟨[], none, []⟩)
      ([], acc.rows.map (fun r => parse_coins_row r.1 r.2))

/-- A parsed RICHES row (`_parse_riches_row`). -/
structure RichesRow where
  type : String
  averageValue : Option Int
  gems : Option CoinCell
  artObjects : Option CoinCell
deriving Repr, DecidableEq

/-- `_parse_riches_row(label, cells)`: same consumption as the coins row
but over the two categories gems and artObjects. -/
def parse_riches_row (label : String) (cells : List String) : RichesRow :=
  let avg := parse_average_value ((cells.getLast?).getD "")
  let remaining := cells.dropLast
  let (gems, r1) := consumeCoin remaining
  let (artObjects, _) := consumeCoin r1
  { type := label, averageValue := avg, gems := gems, artObjects := artObjects }

/-- `extract_riches_table(doc)`. -/
def extract_riches_table (doc : Doc) : List String × List RichesRow :=
  let spans := collect_spans (getPage doc 394)
  let res := pairSearch
    (fun s t => DCB.is_section_header s && decide (t = "RICHES"))
    (fun s t => DCB.is_section_header s && decide (t = "MAGIC ITEMS")) spans 0 none
  match res.1 with
  | none => (["  Warning: RICHES header not found"], [])
  | some ri =>
      let tableSpans := sliceAfter spans ri res.2
      let acc := rowFlush "R" (tableSpans.foldl (plainRowStep 'R') ⟨[], none, []⟩)
      ([], acc.rows.map (fun r => parse_riches_row r.1 r.2))

/-- A parsed MAGIC ITEMS row (`_parse_magic_items_row`); `chance` is
present only when the joined cells start with `NN%`. -/
structure MagicItemsRow where
  type : String
  averageValue : Option Int
  chance : Option Int
  items : String
deriving Repr, DecidableEq

/-- `_parse_magic_items_row(label, cells)`. -/
def parse_magic_items_row (label : String) (cells : List String) : MagicItemsRow :=
  let avg := parse_average_value ((cells.getLast?).getD "")
  let remaining := cells.dropLast
  let text := pyStrip (String.intercalate " " remaining)
  match matchChanceRest text with
  | some (c, restText) =>
      { type := label, averageValue := avg, chance := some c, items := pyStrip restText }
  | none => { type := label, averageValue := avg, chance := none, items := text }

/-- `extract_magic_items_table(doc)`. -/
def extract_magic_items_table (doc : Doc) : List String × List MagicItemsRow :=
  let spans := collect_spans (getPage doc 394)
  let res := pairSearch
    (fun s t => DCB.is_section_header s && decide (t = "MAGIC ITEMS"))
    (fun s t => DCB.is_section_header s && decide (t = "MAGIC ITEM TYPE")) spans 0 none
  match res.1 with
  | none => (["  Warning: MAGIC ITEMS header not found"], [])
  | some mi =>
      let tableSpans := sliceAfter spans mi res.2
      let acc := rowFlush "M" (tableSpans.foldl (plainRowStep 'M') ⟨[], none, []⟩)
      ([], acc.rows.map (fun r => parse_magic_items_row r.1 r.2))

/-! ## Range-keyed and roll-keyed DCB tables -/

/-- A `{min, max, type}` row of a range-keyed lookup table. -/
structure RangeType where
  min : Int
  max : Int
  type : String
deriving Repr, DecidableEq

/-- Flush of the MAGIC ITEM TYPE loop: emit the pending row when both the
range and the type are truthy.  The stored range always matched the range
regex, so `parse_roll_range` cannot fail on it. -/
def mitAppend (res : List RangeType) (curR curT : Option String) : List RangeType :=
  if optTruthy curR ∧ optTruthy curT then
    match parse_roll_range (curR.getD "") with
    | some (lo, hi) => res ++ [⟨lo, hi, curT.getD ""⟩]
    | none => res
  else res

/-- Loop body of `extract_magic_item_type_table`. -/
def mitStep (st : List RangeType × Option String × Option String) (sp : Span) :
    List RangeType × Option String × Option String :=
  let text := pyStrip sp.text
  if text = "" then st
  else if DCB.is_column_header sp then st
  else if DCB.is_row_label sp && matchRange2 text then
    (mitAppend st.1 st.2.1 st.2.2, some text, none)
  else if DCB.is_cell_value sp && optTruthy st.2.1 then
    (st.1, st.2.1, some text)
  else if DCB.is_page_ref sp then st
  else st

/-- `extract_magic_item_type_table(doc)`. -/
def extract_magic_item_type_table (doc : Doc) : List String × List RangeType :=
  let spans := collect_spans (getPage doc 394)
  let res := pairSearch
    (fun s t => DCB.is_section_header s && decide (t = "MAGIC ITEM TYPE"))
    (fun s t => DCB.is_section_header s && pyStartsWith t "COIN APPEARANCE") spans 0 none
  match res.1 with
  | none => (["  Warning: MAGIC ITEM TYPE header not found"], [])
  | some ti =>
      let tableSpans := sliceAfter spans ti res.2
      let fin := tableSpans.foldl mitStep ([], none, none)
      ([], mitAppend fin.1 fin.2.1 fin.2.2)

/-- First index whose span satisfies the predicate (a search loop that
breaks at the first hit). -/
def singleSearch (p : Span → String → Bool) : List Span → Nat → Option Nat
  | [], _ => none
  | s :: rest, i => if p s (pyStrip s.text) then some i else singleSearch p rest (i + 1)

/-- One COIN APPEARANCE row. -/
structure CoinAppEntry where
  roll : Int
  head : String
  tail : Option String
deriving Repr, DecidableEq

/-- Flush of the coin-appearance loop (`current_roll is not None` and a
non-empty cell list; the roll text always matched `^\d+$`). -/
def coinAppFlush (res : List CoinAppEntry) (roll : Option String) (cells : List String) :
    List CoinAppEntry :=
  match roll with
  | some r =>
      if cells ≠ [] then
        match pyInt r with
        | some n =>
            res ++ [⟨n, cells.getD 0 "",
              if cells.length ≥ 2 then some (cells.getD 1 "") else none⟩]
        | none => res
      else res
  | none => res

/-- The coin-appearance row loop; a non-numeric bold label flushes and
breaks (the post-loop flush is then a no-op, so the flush result is
returned directly). -/
def coinAppLoop : List Span → List CoinAppEntry → Option String → List String →
    List CoinAppEntry
  | [], res, roll, cells => coinAppFlush res roll cells
  | sp :: rest, res, roll, cells =>
      let text := pyStrip sp.text
      if text = "" then coinAppLoop rest res roll cells
      else if DCB.is_column_header sp then coinAppLoop rest res roll cells
      else if DCB.is_row_label sp && pyIsDigitStr text then
        coinAppLoop rest (coinAppFlush res roll cells) (some text) []
      else if DCB.is_cell_value sp && roll.isSome then
        coinAppLoop rest res roll (cells ++ [text])
      else if DCB.is_row_label sp && !(pyIsDigitStr text) then
        coinAppFlush res roll cells
      else coinAppLoop rest res roll cells

/-- `extract_coin_appearance_table(doc)`. -/
def extract_coin_appearance_table (doc : Doc) : List String × List CoinAppEntry :=
  let spans := collect_spans (getPage doc 394)
  match singleSearch
      (fun s t => DCB.is_section_header s && pyStartsWith t "COIN APPEARANCE") spans 0 with
  | none => (["  Warning: COIN APPEARANCE header not found"], [])
  | some i => ([], coinAppLoop (spans.drop (i + 1)) [] none [])

/-- One GEM VALUE row; `value` is a present-key marker around a possibly
absent parsed value. -/
structure GemValueRow where
  min : Int
  max : Int
  category : Option String
  value : Option (Option Int)
deriving Repr, DecidableEq

def gemValueFlush (res : List GemValueRow) (curR : Option String) (cells : List String) :
    List GemValueRow :=
  if optTruthy curR ∧ cells ≠ [] then
    match parse_roll_range (curR.getD "") with
    | some (lo, hi) =>
        res ++ [⟨lo, hi,
          if cells.length ≥ 1 then some (cells.getD 0 "") else none,
          if cells.length ≥ 2 then some (parse_average_value (cells.getD 1 "")) else none⟩]
    | none => res
  else res

/-- Loop body of `extract_gem_value_table`. -/
def gemValueStep (st : List GemValueRow × Option String × List String) (sp : Span) :
    List GemValueRow × Option String × List String :=
  let text := pyStrip sp.text
  if text = "" then st
  else if DCB.is_column_header sp then st
  else if DCB.is_row_label sp && matchRange2 text then
    (gemValueFlush st.1 st.2.1 st.2.2, some text, [])
  else if DCB.is_cell_value sp && optTruthy st.2.1 then
    (st.1, st.2.1, st.2.2 ++ [text])
  else st

/-- Header search of `extract_gem_value_table`: GEM VALUE starts, GEM TYPE
or any sidebar header (once a start exists) ends. -/
def gemValueSearch : List Span → Nat → Option Nat → Option Nat × Option Nat
  | [], _, st => (st, none)
  | s :: rest, i, st =>
      let t := pyStrip s.text
      if DCB.is_section_header s && decide (t = "GEM VALUE") then
        gemValueSearch rest (i + 1) (some i)
      else if DCB.is_section_header s && decide (t = "GEM TYPE") then (st, some i)
      else if DCB.is_sidebar_header s && st.isSome then (st, some i)
      else gemValueSearch rest (i + 1) st

/-- `extract_gem_value_table(doc)`. -/
def extract_gem_value_table (doc : Doc) : List String × List GemValueRow :=
  let spans := collect_spans (getPage doc 395)
  let res := gemValueSearch spans 0 none
  match res.1 with
  | none => (["  Warning: GEM VALUE header not found"], [])
  | some s =>
      let tableSpans := sliceAfter spans s res.2
      let fin := tableSpans.foldl gemValueStep ([], none, [])
      ([], gemValueFlush fin.1 fin.2.1 fin.2.2)

/-! ## GEM TYPE grid -/

abbrev GemGrid := List (String × List String)

def gemCategories : List String :=
  ["Ornamental", "Semi-Precious", "Fancy", "Precious", "Gemstone"]

def gemInit : GemGrid := gemCategories.map (fun c => (c, []))

def gemAppend (g : GemGrid) (cat v : String) : GemGrid :=
  g.map (fun p => if p.1 = cat then (p.1, p.2 ++ [v]) else p)

def lookupNat (d : List (Nat × String)) (k : Nat) : Option String :=
  (d.find? (fun p => p.1 = k)).map (fun p => p.2)

/-- `row_cells[k] = text` / `row_cells[k] += " " + text`. -/
def rcAdd (d : List (Nat × String)) (k : Nat) (text : String) : List (Nat × String) :=
  match lookupNat d k with
  | some old =>
      d.map (fun p => if p.1 = k then (k, old ++ " " ++ text) else p)
  | none => d ++ [(k, text)]

/-- `get_column(x)`: the rightmost known column boundary at or left of
`x` with a 5-point tolerance, else column 0. -/
def getColumnAux (colX : List ℚ) (x : ℚ) : Nat → Nat
  | 0 => 0
  | Nat.succ i => if decide (colX.getD i 0 - 5 ≤ x) then i else getColumnAux colX x i

def get_column (colX : List ℚ) (x : ℚ) : Nat := getColumnAux colX x colX.length

/-- Python `int(float)` truncation toward zero on a rational. -/
def ratTrunc (q : ℚ) : Int := q.num / (q.den : Int)

/-- Python `s[:k]` with a possibly negative index. -/
def pySliceTo (s : String) (k : Int) : String :=
  if k < 0 then String.mk (s.toList.take (Int.toNat ((s.length : Int) + k)))
  else String.mk (s.toList.take (Int.toNat k))

/-- Python `s[k:]` with a possibly negative index. -/
def pySliceFrom (s : String) (k : Int) : String :=
  if k < 0 then String.mk (s.toList.drop (Int.toNat ((s.length : Int) + k)))
  else String.mk (s.toList.drop (Int.toNat k))

/-- Python `s.rfind(c)`. -/
def pyRfindChar (s : String) (c : Char) : Int :=
  match s.toList.reverse.findIdx? (fun x => x = c) with
  | some j => ((s.length : Int) - 1 - (j : Int))
  | none => -1

/-- The merged-cell handling of the GEM TYPE loop: assign the span's text
to its column, splitting proportionally at a word boundary when the span
extends past the next column's left edge. -/
def gemCellAdd (colX : List ℚ) (rc : List (Nat × String)) (sp : Span) (text : String) :
    List (Nat × String) :=
  let col := get_column colX sp.bbox.1
  let cellRight := sp.bbox.2.2.1
  let nextColX : ℚ := if col + 1 < colX.length then colX.getD (col + 1) 0 else 9999
  if cellRight > nextColX + 5 then
    let spanLeft := sp.bbox.1
    let spanWidth := cellRight - spanLeft
    let frac : ℚ := if spanWidth > 0 then (nextColX - spanLeft) / spanWidth else 1
    let charSplit : Int := ratTrunc ((text.length : ℚ) * frac)
    let leftPart0 := pyStrip (pySliceTo text charSplit)
    let rightPart0 := pyStrip (pySliceFrom text charSplit)
    let lastSpace := pyRfindChar (pySliceTo text charSplit) ' '
    let leftPart := if lastSpace > 0 then pyStrip (pySliceTo text lastSpace) else leftPart0
    let rightPart := if lastSpace > 0 then pyStrip (pySliceFrom text lastSpace) else rightPart0
    let rc1 := if leftPart ≠ "" then rcAdd rc col leftPart else rc
    if rightPart ≠ "" then rcAdd rc1 (col + 1) rightPart else rc1
  else rcAdd rc col text

/-- Row flush of the GEM TYPE loop: append each present column cell to its
category's list. -/
def gemFlush (g : GemGrid) (roll : Option String) (rc : List (Nat × String)) : GemGrid :=
  match roll with
  | some _ =>
      (List.range gemCategories.length).foldl
        (fun acc i =>
          match lookupNat rc i with
          | some v => gemAppend acc (gemCategories.getD i "") v
          | none => acc) g
  | none => g

/-- The GEM TYPE row loop; a bold `*` footnote flushes and breaks. -/
def gemTypeLoop (colX : List ℚ) : List Span → GemGrid → Option String →
    List (Nat × String) → GemGrid
  | [], g, roll, rc => gemFlush g roll rc
  | sp :: rest, g, roll, rc =>
      let text := pyStrip sp.text
      if text = "" then gemTypeLoop colX rest g roll rc
      else if DCB.is_column_header sp then gemTypeLoop colX rest g roll rc
      else if DCB.is_row_label sp && pyIsDigitStr text then
        gemTypeLoop colX rest (gemFlush g roll rc) (some text) []
      else if DCB.is_cell_value sp && roll.isSome then
        gemTypeLoop colX rest g roll (gemCellAdd colX rc sp text)
      else if DCB.is_row_label sp && pyStartsWith text "*" then
        gemFlush g roll rc
      else gemTypeLoop colX rest g roll rc

/-- Header search of the GEM TYPE grid. -/
def gemTypeSearch : List Span → Nat → Option Nat → Option Nat × Option Nat
  | [], _, st => (st, none)
  | s :: rest, i, st =>
      let t := pyStrip s.text
      if DCB.is_section_header s && decide (t = "GEM TYPE") then
        gemTypeSearch rest (i + 1) (some i)
      else if st.isSome && (DCB.is_section_header s || DCB.is_subsection_title s) then
        (st, some i)
      else gemTypeSearch rest (i + 1) st

/-- `extract_gem_type_table(doc)`.  The column-count warning is modelled
without the float-list suffix of the Python message. -/
def extract_gem_type_table (doc : Doc) : List String × GemGrid :=
  let spans := collect_spans (getPage doc 395)
  let res := gemTypeSearch spans 0 none
  match res.1 with
  | none => (["  Warning: GEM TYPE header not found"], [])
  | some s =>
      let tableSpans := sliceAfter spans s res.2
      let colX := tableSpans.foldl
        (fun acc sp =>
          if DCB.is_column_header sp then
            (if pyStartsWith (pyStrip sp.text) "d12" then acc else acc ++ [sp.bbox.1])
          else acc) []
      let warns := if colX.length ≠ 5 then
          ["  Warning: expected 5 column headers, found " ++ toString colX.length]
        else []
      (warns, gemTypeLoop colX tableSpans gemInit none [])

/-! ## Generic two-column and side-by-side tables -/

/-- Header search of `extract_two_column_table`: the named section header
starts (last hit kept), any other section header, sub-section title or
item sub-section title after a start ends. -/
def twoColSearch (name : String) : List Span → Nat → Option Nat → Option Nat × Option Nat
  | [], _, st => (st, none)
  | s :: rest, i, st =>
      let t := pyStrip s.text
      if DCB.is_section_header s && decide (t = name) then
        twoColSearch name rest (i + 1) (some i)
      else if st.isSome && DCB.is_section_header s && decide (t ≠ name) then (st, some i)
      else if st.isSome && DCB.is_subsection_title s then (st, some i)
      else if st.isSome && DCB.is_item_subsection_title s then (st, some i)
      else twoColSearch name rest (i + 1) st

/-- The two-column-table row loop; a `*` footnote flushes and breaks (the
post-loop flush is then a no-op).  A second cell in the same row flushes
the pending row — clearing the range — and becomes the pending type. -/
def twoColLoop : List Span → List RangeType → Option String → Option String → List RangeType
  | [], res, r, t => mitAppend res r t
  | sp :: rest, res, r, t =>
      let text := pyStrip sp.text
      if text = "" then twoColLoop rest res r t
      else if DCB.is_column_header sp then twoColLoop rest res r t
      else if DCB.is_row_label sp && matchRangeOpt text then
        twoColLoop rest (mitAppend res r t)
          (some (if pyIsDigitStr text then text ++ "-" ++ text else text)) none
      else if DCB.is_cell_value sp && optTruthy r then
        match t with
        | none => twoColLoop rest res r (some text)
        | some _ => twoColLoop rest (mitAppend res r t) none (some text)
      else if DCB.is_row_label sp && pyStartsWith text "*" then
        mitAppend res r t
      else twoColLoop rest res r t

/-- `extract_two_column_table(doc, page_idx, section_name, stop_sections)`;
the `stop_sections` argument is unused in the source body and omitted. -/
def extract_two_column_table (doc : Doc) (pageIdx : Nat) (name : String) :
    List String × List RangeType :=
  let spans := collect_spans (getPage doc pageIdx)
  let res := twoColSearch name spans 0 none
  match res.1 with
  | none =>
      (["  Warning: " ++ name ++ " header not found on page " ++ toString (pageIdx + 1)], [])
  | some s => ([], twoColLoop (sliceAfter spans s res.2) [] none none)

/-- One side-by-side d20 row. -/
structure RollValue where
  roll : Int
  value : String
deriving Repr, DecidableEq

/-- Header search of `extract_side_by_side_d20_table`. -/
def sbsSearch (name : String) : List Span → Nat → Option Nat → Option Nat × Option Nat
  | [], _, st => (st, none)
  | s :: rest, i, st =>
      let t := pyStrip s.text
      if DCB.is_section_header s && decide (t = name) then
        sbsSearch name rest (i + 1) (some i)
      else if st.isSome &&
          (DCB.is_section_header s || DCB.is_subsection_title s ||
           DCB.is_item_subsection_title s || DCB.is_sidebar_header s) then
        (st, some i)
      else sbsSearch name rest (i + 1) st

/-- Flush of the side-by-side loop (`is not None` on both fields; the roll
always matched `^\d+$`). -/
def sbsFlush (res : List RollValue) (roll v : Option String) : List RollValue :=
  match roll, v with
  | some r, some val =>
      match pyInt r with
      | some n => res ++ [⟨n, val⟩]
      | none => res
  | _, _ => res

/-- The side-by-side row loop: every cell flushes immediately; a
non-numeric bold label flushes and breaks. -/
def sbsLoop : List Span → List RollValue → Option String → Option String → List RollValue
  | [], res, r, v => sbsFlush res r v
  | sp :: rest, res, r, v =>
      let text := pyStrip sp.text
      if text = "" then sbsLoop rest res r v
      else if DCB.is_column_header sp then sbsLoop rest res r v
      else if DCB.is_row_label sp && pyIsDigitStr text then
        sbsLoop rest (sbsFlush res r v) (some text) none
      else if DCB.is_cell_value sp && r.isSome then
        sbsLoop rest (sbsFlush res r (some text)) none none
      else if DCB.is_row_label sp && !(pyIsDigitStr text) then
        sbsFlush res r v
      else sbsLoop rest res r v

/-- `extract_side_by_side_d20_table(doc, page_idx, section_name)`. -/
def extract_side_by_side_d20_table (doc : Doc) (pageIdx : Nat) (name : String) :
    List String × List RollValue :=
  let spans := collect_spans (getPage doc pageIdx)
  let res := sbsSearch name spans 0 none
  match res.1 with
  | none =>
      (["  Warning: " ++ name ++ " header not found on page " ++ toString (pageIdx + 1)], [])
  | some s => ([], sbsLoop (sliceAfter spans s res.2) [] none none)

/-! ## Treasure Hoard table -/

/-- One TREASURE HOARD row. -/
structure HoardRow where
  min : Int
  max : Int
  description : String
  averageValue : Option Int
deriving Repr, DecidableEq

/-- Python truthiness of an optional integer (`None` and `0` are falsy). -/
def optIntTruthy : Option Int → Bool
  | some n => n ≠ 0
  | none => false

/-- End search of the treasure-hoard table. -/
def hoardEnd : List Span → Nat → Option Nat
  | [], _ => none
  | s :: rest, i =>
      let t := pyStrip s.text
      if DCB.is_section_header s && decide (t ≠ "TREASURE HOARD") then some i
      else if DCB.is_subsection_title s then some i
      else if DCB.is_sidebar_header s then some i
      else hoardEnd rest (i + 1)

/-- Flush of the treasure-hoard loop: the last cell is the average value
when it parses truthy; the description joins the remaining cells. -/
def hoardFlush (res : List HoardRow) (curR : Option String) (cells : List String) :
    List HoardRow :=
  if optTruthy curR ∧ cells ≠ [] then
    match parse_roll_range (curR.getD "") with
    | some (lo, hi) =>
        let avg : Option Int :=
          if cells.length > 1 then parse_average_value ((cells.getLast?).getD "") else none
        let desc :=
          if optIntTruthy avg ∧ cells.length > 2 then
            String.intercalate " " cells.dropLast
          else if cells.length > 1 ∧ optIntTruthy avg then
            String.intercalate " " cells.dropLast
          else String.intercalate " " cells
        res ++ [⟨lo, hi, pyStrip desc, avg⟩]
    | none => res
  else res

/-- Loop body of the treasure-hoard table. -/
def hoardStep (st : List HoardRow × Option String × List String) (sp : Span) :
    List HoardRow × Option String × List String :=
  let text := pyStrip sp.text
  if text = "" then st
  else if DCB.is_column_header sp then st
  else if DCB.is_row_label sp && matchRange2 text then
    (hoardFlush st.1 st.2.1 st.2.2, some text, [])
  else if (DCB.is_cell_value sp || DCB.is_cell_value_italic sp) && optTruthy st.2.1 then
    (st.1, st.2.1, st.2.2 ++ [text])
  else st

/-- `extract_treasure_hoard_table(doc)`: a missing anchor returns an empty
list with NO warning (source comment: "Might not exist on this page"). -/
def extract_treasure_hoard_table (doc : Doc) : List String × List HoardRow :=
  let spans := collect_spans (getPage doc 393)
  match singleSearch
      (fun s t => DCB.is_section_header s && decide (t = "TREASURE HOARD")) spans 0 with
  | none => ([], [])
  | some s =>
      let en := hoardEnd (spans.drop (s + 1)) (s + 1)
      let fin := (sliceAfter spans s en).foldl hoardStep ([], none, [])
      ([], hoardFlush fin.1 fin.2.1 fin.2.2)

/-! ## Magic-item summary tables -/

/-- One summary-table row (name / gp value / summary of effect). -/
structure SummaryItem where
  name : String
  value : Int
  summary : String
deriving Repr, DecidableEq

/-- Spans pooled from pages `[a, b)` of the document. -/
def poolSpans (doc : Doc) (a b : Nat) : List Span :=
  ((List.range' a (b - a)).map (fun p => collect_spans (getPage doc p))).flatten

/-- Index of the LAST span whose stripped text equals the section name. -/
def lastHeader (name : String) : List Span → Nat → Option Nat → Option Nat
  | [], _, st => st
  | s :: rest, i, st =>
      if DCB.is_section_header s && decide (pyStrip s.text = name) then
        lastHeader name rest (i + 1) (some i)
      else lastHeader name rest (i + 1) st

/-- End search of a summary table. -/
def subEnd (name : String) : List Span → Nat → Option Nat
  | [], _ => none
  | s :: rest, i =>
      let t := pyStrip s.text
      if DCB.is_section_header s && decide (t ≠ name) then some i
      else if DCB.is_sidebar_header s then some i
      else if DCB.is_page_title s then some i
      else subEnd name rest (i + 1)

/-- `int(m.group(1))` for `re.match(r'^([\d]+)', s)`, else 0. -/
def leadDigits (s : String) : Int :=
  let ds := s.toList.takeWhile pyIsDigit
  if ds = [] then 0 else (natOfDigits ds : Int)

/-- Match `^[\d,]+$`. -/
def isDigitsCommas (s : String) : Bool :=
  s.toList ≠ [] && s.toList.all isDigitOrComma

/-- Flush of the summary-table loop: a row needs at least 3 cells; the
value is the leading digits of the second cell with commas and spaces
removed; the summary joins the remaining cells. -/
def summaryFlush (res : List SummaryItem) (cells : List String) : List SummaryItem :=
  if cells.length ≥ 3 then
    res ++ [⟨cells.getD 0 "",
      leadDigits (pyDeleteChar (pyDeleteChar (cells.getD 1 "") ',') ' '),
      pyStrip (String.intercalate " " (cells.drop 2))⟩]
  else res

/-- The summary-table row loop.  A bold row label flushes and breaks; a
cell starting a new row (3+ cells pending, not all digits/commas, not a
`+` or en-dash continuation) flushes first. -/
def summaryLoop : List Span → List SummaryItem → List String → List SummaryItem
  | [], res, cells => summaryFlush res cells
  | sp :: rest, res, cells =>
      let text := pyStrip sp.text
      if text = "" then summaryLoop rest res cells
      else if DCB.is_column_header sp then summaryLoop rest res cells
      else if DCB.is_row_label sp then summaryFlush res cells
      else if DCB.is_cell_value sp || DCB.is_cell_value_italic sp then
        if cells.length ≥ 3 ∧ ¬isDigitsCommas text ∧ ¬pyStartsWith text "+" ∧
            ¬pyStartsWith text "–" then
          summaryLoop rest (summaryFlush res cells) [text]
        else summaryLoop rest res (cells ++ [text])
      else summaryLoop rest res cells

/-- `extract_magic_item_subtable(doc, page_idx, section_name)`: spans are
pooled from the page and the next one, and the LAST matching header
starts the table. -/
def extract_magic_item_subtable (doc : Doc) (pageIdx : Nat) (name : String) :
    List String × List SummaryItem :=
  let allSpans := poolSpans doc pageIdx (min (pageIdx + 2) (docLen doc))
  match lastHeader name allSpans 0 none with
  | none =>
      (["  Warning: " ++ name ++ " summary table not found on page " ++
        toString (pageIdx + 1)], [])
  | some s =>
      let en := subEnd name (allSpans.drop (s + 1)) (s + 1)
      ([], summaryLoop (sliceAfter allSpans s en) [] [])

/-! ## Generation sub-tables -/

/-- A generation-table row: a range row or a single-roll row. -/
inductive GenRow where
  | range (min max : Int) (cells : List String)
  | single (roll : Int) (cells : List String)
deriving Repr, DecidableEq

/-- Python `s.split()` (split on whitespace runs, dropping empty pieces). -/
def pySplitWsAux : List Char → List Char → List String
  | [], acc => if acc = [] then [] else [String.mk acc.reverse]
  | c :: rest, acc =>
      if pyIsSpace c then
        if acc = [] then pySplitWsAux rest []
        else String.mk acc.reverse :: pySplitWsAux rest []
      else pySplitWsAux rest (c :: acc)

def pySplitWs (s : String) : List String := pySplitWsAux s.toList []

/-- Python `str.capitalize()`: first character upper-cased, the rest
lower-cased (ASCII). -/
def pyCapitalize (s : String) : String :=
  match s.toList with
  | [] => ""
  | c :: rest => String.mk (c.toUpper :: rest.map Char.toLower)

/-- ASCII letter or digit (the `[^a-zA-Z0-9\s]` complement, minus
whitespace). -/
def isAsciiAlnum (c : Char) : Bool :=
  pyIsDigit c || ('a' ≤ c && c ≤ 'z') || ('A' ≤ c && c ≤ 'Z')

/-- `_to_camel_case(header)`. -/
def to_camel_case (header : String) : String :=
  let cleaned := String.mk
    (header.toList.map (fun c => if isAsciiAlnum c || pyIsSpace c then c else ' '))
  match pySplitWs cleaned with
  | [] => pyLower header
  | w :: ws => pyLower w ++ String.join (ws.map pyCapitalize)

/-- Flush of `_parse_generation_table_rows`: a range label (upper `"00"`
meaning 100, the lower bound NOT so remapped) or a single number; other
labels are dropped. -/
def genFlush (rows : List GenRow) (label : Option String) (cells : List String) :
    List GenRow :=
  match label with
  | some lab =>
      if cells ≠ [] then
        match rangeGroups lab with
        | some (g1, g2) =>
            rows ++ [.range (natOfDigits g1 : Int)
              (if String.mk g2 = "00" then 100 else (natOfDigits g2 : Int)) cells]
        | none =>
            if pyIsDigitStr lab then
              rows ++ [.single (natOfDigits lab.toList : Int) cells]
            else rows
      else rows
  | none => rows

/-- Loop body of `_parse_generation_table_rows`. -/
def genStep (st : List GenRow × Option String × List String) (sp : Span) :
    List GenRow × Option String × List String :=
  let text := pyStrip sp.text
  if text = "" then st
  else if DCB.is_column_header sp then st
  else if DCB.is_page_title sp || DCB.is_subsection_title sp then st
  else if DCB.is_page_header sp || DCB.is_page_number sp then st
  else if DCB.is_description_font sp then st
  else if DCB.is_row_label sp then
    (genFlush st.1 st.2.1 st.2.2, if matchRangeOpt text then some text else none, [])
  else if (DCB.is_cell_value sp || DCB.is_cell_value_italic sp) && st.2.1.isSome then
    (st.1, st.2.1, st.2.2 ++ [text])
  else st

def genRows (spans : List Span) : List GenRow :=
  let fin := spans.foldl genStep ([], none, [])
  genFlush fin.1 fin.2.1 fin.2.2

/-- Split pooled spans into named sections at section headers (spans with
blank stripped text are skipped here, not collected). -/
def genSections : List Span → Option String → List Span → List (String × List Span)
  | [], cn, cs =>
      (match cn with
       | some n => [(n, cs)]
       | none => [])
  | sp :: rest, cn, cs =>
      let text := pyStrip sp.text
      if text = "" then genSections rest cn cs
      else if DCB.is_section_header sp then
        match cn with
        | some n => (n, cs) :: genSections rest (some text) []
        | none => genSections rest (some text) []
      else
        match cn with
        | some n => genSections rest (some n) (cs ++ [sp])
        | none => genSections rest none cs

/-- Generic dict insertion (overwrite in place, else append). -/
def dictUpd {α : Type} (d : List (String × α)) (k : String) (v : α) : List (String × α) :=
  if d.any (fun p => p.1 = k) then d.map (fun p => if p.1 = k then (k, v) else p)
  else d ++ [(k, v)]

/-- Spans pooled from pages `[a, b)` that exist in the document. -/
def genPool (doc : Doc) (a b : Nat) : List Span :=
  (((List.range' a (b - a)).filter (fun p => p < docLen doc)).map
    (fun p => collect_spans (getPage doc p))).flatten

/-- `extract_generation_subtables(doc, start_page_idx, end_page_idx)`. -/
def extract_generation_subtables (doc : Doc) (a b : Nat) :
    List (String × List GenRow) :=
  (genSections (genPool doc a b) none []).foldl
    (fun acc p => dictUpd acc (to_camel_case p.1) (genRows p.2)) []

/-! ## `main` of extract_dcb_treasure.py -/

def SUMMARY_TABLE_SECTIONS : List (Nat × String × String) :=
  [(399, "AMULETS AND TALISMANS", "amulets"),
   (403, "BALMS AND OILS", "magicBalms"),
   (405, "MAGIC CRYSTALS", "magicCrystals"),
   (407, "MAGIC GARMENTS", "magicGarments"),
   (411, "MAGIC RINGS", "magicRings"),
   (415, "POTIONS", "potions"),
   (421, "WONDROUS ITEMS", "wondrousItems")]

def GENERATION_TABLE_SECTIONS : List (Nat × Nat × String) :=
  [(401, 403, "magicArmour"),
   (409, 411, "magicInstruments"),
   (413, 415, "magicWeapons"),
   (417, 419, "rodsStavesWands"),
   (419, 421, "scrollsBooks")]

/-- The value stored under one key of the output JSON object. -/
inductive TVal where
  | coins (r : List CoinsRow)
  | riches (r : List RichesRow)
  | magicItems (r : List MagicItemsRow)
  | rangeTable (r : List RangeType)
  | hoard (r : List HoardRow)
  | coinApp (r : List CoinAppEntry)
  | gemValue (r : List GemValueRow)
  | gemType (r : GemGrid)
  | rollValue (r : List RollValue)
  | summary (r : List SummaryItem)
  | gen (r : List (String × List GenRow))
deriving Repr, DecidableEq

/-- The table-building part of `main()`: every warning printed, in call
order, and the output object as an insertion-ordered key/value list. -/
def dcb_main (doc : Doc) : List String × List (String × TVal) :=
  let c := extract_coins_table doc
  let r := extract_riches_table doc
  let m := extract_magic_items_table doc
  let mt := extract_magic_item_type_table doc
  let th := extract_treasure_hoard_table doc
  let ca := extract_coin_appearance_table doc
  let gv := extract_gem_value_table doc
  let gt := extract_gem_type_table doc
  let jw := extract_two_column_table doc 396 "JEWELLERY"
  let ma := extract_two_column_table doc 396 "MISCELLANEOUS ART OBJECTS"
  let pm := extract_side_by_side_d20_table doc 396 "PRECIOUS MATERIALS"
  let em := extract_side_by_side_d20_table doc 396 "EMBELLISHMENTS"
  let pv := extract_side_by_side_d20_table doc 396 "PROVENANCE"
  let su := SUMMARY_TABLE_SECTIONS.map
    (fun p => (p.2.2, extract_magic_item_subtable doc p.1 p.2.1))
  let ge := GENERATION_TABLE_SECTIONS.map
    (fun p => (p.2.2, extract_generation_subtables doc p.1 p.2.1))
  (c.1 ++ r.1 ++ m.1 ++ mt.1 ++ th.1 ++ ca.1 ++ gv.1 ++ gt.1 ++ jw.1 ++ ma.1 ++
     pm.1 ++ em.1 ++ pv.1 ++ (su.map (fun q => q.2.1)).flatten,
   [("coins", TVal.coins c.2), ("riches", TVal.riches r.2),
    ("magicItems", TVal.magicItems m.2), ("magicItemType", TVal.rangeTable mt.2),
    ("treasureHoard", TVal.hoard th.2), ("coinAppearance", TVal.coinApp ca.2),
    ("gemValue", TVal.gemValue gv.2), ("gemType", TVal.gemType gt.2),
    ("jewellery", TVal.rangeTable jw.2), ("miscArtObjects", TVal.rangeTable ma.2),
    ("preciousMaterials", TVal.rollValue pm.2), ("embellishments", TVal.rollValue em.2),
    ("provenance", TVal.rollValue pv.2)]
     ++ su.map (fun q => (q.1, TVal.summary q.2.2))
     ++ ge.map (fun q => (q.1, TVal.gen q.2)))

/-- C4 counterexample.  On a document with no pages the TREASURE HOARD
anchor is absent, yet `extract_treasure_hoard_table` yields an empty list
with NO warning, and no warning of the whole run mentions the table: the
claim that every missing-anchor sub-extraction logs a warning is false. -/
theorem C4_counterexample :
    (singleSearch (fun s t => DCB.is_section_header s && decide (t = "TREASURE HOARD"))
        (collect_spans (getPage ([] : Doc) 393)) 0 = none) ∧
    extract_treasure_hoard_table ([] : Doc) = ([], []) ∧
    ("treasureHoard", TVal.hoard []) ∈ (dcb_main ([] : Doc)).2 ∧
    ((dcb_main ([] : Doc)).1.all (fun w => !(pyIn "TREASURE HOARD" w))) = true := by
  decide

/-- C4 amended.  Missing-anchor tolerance as the code implements it: when
the COINS anchor search fails, `extract_coins_table` yields the warning
and an empty list, the warning is printed by the run and the `coins` key
is still present with an empty table; and on any document the output
mapping carries exactly the fixed key list in insertion order, so no
missing anchor removes a key or aborts the run.  (The treasure-hoard and
generation sub-extractions yield their empties silently, per
C4_counterexample.) -/
theorem C4_amended (d : Doc)
    (h : (pairSearch (fun s t => DCB.is_section_header s && decide (t = "COINS"))
        (fun s t => DCB.is_section_header s && decide (t = "RICHES"))
        (collect_spans (getPage d 394)) 0 none).1 = none) :
    extract_coins_table d = (["  Warning: COINS header not found"], []) ∧
    "  Warning: COINS header not found" ∈ (dcb_main d).1 ∧
    ("coins", TVal.coins []) ∈ (dcb_main d).2 ∧
    (dcb_main d).2.map Prod.fst =
      ["coins", "riches", "magicItems", "magicItemType", "treasureHoard",
       "coinAppearance", "gemValue", "gemType", "jewellery", "miscArtObjects",
       "preciousMaterials", "embellishments", "provenance",
       "amulets", "magicBalms", "magicCrystals", "magicGarments", "magicRings",
       "potions", "wondrousItems",
       "magicArmour", "magicInstruments", "magicWeapons", "rodsStavesWands",
       "scrollsBooks"] := by
  have hc : extract_coins_table d = (["  Warning: COINS header not found"], []) := by
    simp only [extract_coins_table, h]
  refine ⟨hc, ?_, ?_, ?_⟩
  · simp only [dcb_main, hc, List.append_assoc, List.mem_append, List.mem_singleton]
    left
    trivial
  · simp only [dcb_main, hc]
    exact List.mem_cons_self _ _
  · simp only [dcb_main, SUMMARY_TABLE_SECTIONS, GENERATION_TABLE_SECTIONS,
      List.map_append, List.map_map, List.map_cons, List.map_nil]
    rfl

/-- C4 witness: the amended theorem applied to the empty document, whose
COINS anchor search concretely fails. -/
theorem C4_witness :
    ("coins", TVal.coins []) ∈ (dcb_main ([] : Doc)).2 :=
  (C4_amended ([] : Doc) (by decide)).2.2.1

end DW
